import Mathlib

/-!
Shallow embedding of the todobar_textual client core: the task data model
and the pure reducer from src/task_utils.py, the wire-envelope decoder from
src/net_models.py, the connection-lifecycle handlers from src/app.py, and
the deadline/due-command parsers from src/task_utils.py.

Conventions of the embedding:
* Python lists become Lean `List`; Python dataclasses become structures.
* Python `next((i for i, t in enumerate(l) if cond), -1)` (first index of a
  match, or -1) becomes `pyFindIdx : (α → Bool) → List α → Option Nat`.
* Python `list.insert(i, x)` (which clamps `i` to the list length) becomes
  `pyInsert`; `list.pop(i)` on a valid index is expressed with `List.eraseIdx`
  plus `l[i]?` for the removed element.
* Naive local `datetime` values are modelled as integer epoch-second
  timestamps (no timezone / DST modelling); `datetime.now()` becomes a
  `PyNow` record holding a day number and the seconds elapsed within that
  day.  `date.weekday()` is day-number arithmetic (1970-01-01 is a Thursday).
* Fallible decoding (`raise ValueError`) becomes `Except String`.
-/

/-- Task status literal from src/models.py: `TaskStatus`. -/
inductive TaskStatus where
  | Succeeded
  | Failed
  | Obsoleted
deriving DecidableEq

/-- Live task record from src/models.py (`LiveTask`). -/
structure LiveTask where
  id : String
  value : String
  deadline : Option Int
  managed : Option String
deriving DecidableEq

/-- Finished task record from src/models.py (`FinishedTask`): a LiveTask
plus a terminal status.  Flattened here instead of using inheritance. -/
structure FinishedTask where
  id : String
  value : String
  deadline : Option Int
  managed : Option String
  status : TaskStatus
deriving DecidableEq

/-- Snapshot record from src/models.py (`StateSnapshot`). -/
structure StateSnapshot where
  live : List LiveTask
  finished : List FinishedTask
deriving DecidableEq

/-- The decoded operation kind: the result of `parse_websocket_op_kind`
in src/net_models.py, which always yields a dict with exactly one of the
eight allowed operation keys.  Modelled as a sum type. -/
inductive OpKind where
  | OverwriteState (s : StateSnapshot)
  | InsLiveTask (id : String) (value : String) (deadline : Option Int)
  | RestoreFinishedTask (id : String)
  | EditLiveTask (id : String) (value : String) (deadline : Option Int)
  | DelLiveTask (id : String)
  | MvLiveTask (id_del : String) (id_ins : String)
  | RevLiveTask (id1 : String) (id2 : String)
  | FinishLiveTask (id : String) (status : TaskStatus)
deriving DecidableEq

/-- Python `next((i for i, t in enumerate(l) if p t), -1)`: index of the
first element satisfying `p`, with `none` standing for -1. -/
def pyFindIdx (p : α → Bool) : List α → Option Nat
  | [] => none
  | a :: l => if p a then some 0 else (pyFindIdx p l).map (· + 1)

/-- Python `list.insert(n, x)`: inserts before position `n`, clamping `n`
to the length of the list. -/
def pyInsert (n : Nat) (x : α) : List α → List α
  | [] => [x]
  | a :: l =>
    match n with
    | 0 => x :: a :: l
    | Nat.succ m => a :: pyInsert m x l

/-- The edit helper `_edit` nested in `apply_operation` (src/task_utils.py
lines 324-332). -/
def editTask (pid : String) (pvalue : String) (pdeadline : Option Int)
    (task : LiveTask) : LiveTask :=
  if task.id ≠ pid then task
  else { id := task.id, value := pvalue, deadline := pdeadline, managed := task.managed }

/-- The pure reducer `apply_operation` (src/task_utils.py lines 288-383).
It consumes an already-decoded operation kind, so the `isinstance` guard of
the `OverwriteState` branch and the trailing `return snapshot` for unknown
keys are subsumed by the exhaustive match on `OpKind`. -/
def apply_operation (snapshot : StateSnapshot) (op_kind : OpKind) : StateSnapshot :=
  match op_kind with
  | .OverwriteState overwrite => overwrite
  | .InsLiveTask pid pvalue pdeadline =>
    let task : LiveTask := { id := pid, value := pvalue, deadline := pdeadline, managed := none }
    { live := task :: snapshot.live, finished := snapshot.finished }
  | .RestoreFinishedTask task_id =>
    match pyFindIdx (fun t => t.id == task_id) snapshot.finished with
    | none => snapshot
    | some finished_idx =>
      match snapshot.finished[finished_idx]? with
      | none => snapshot
      | some finished_task =>
        let new_finished := snapshot.finished.filter (fun t => t.id ≠ task_id)
        let new_live_task : LiveTask :=
          { id := finished_task.id, value := finished_task.value,
            deadline := finished_task.deadline, managed := finished_task.managed }
        { live := new_live_task :: snapshot.live, finished := new_finished }
  | .EditLiveTask pid pvalue pdeadline =>
    { live := snapshot.live.map (editTask pid pvalue pdeadline), finished := snapshot.finished }
  | .DelLiveTask task_id =>
    { live := snapshot.live.filter (fun t => t.id ≠ task_id), finished := snapshot.finished }
  | .MvLiveTask id_del id_ins =>
    match pyFindIdx (fun t => t.id == id_del) snapshot.live,
          pyFindIdx (fun t => t.id == id_ins) snapshot.live with
    | some from_index, some to_index =>
      if from_index = to_index then snapshot
      else
        match snapshot.live[from_index]? with
        | none => snapshot
        | some task =>
          { live := pyInsert to_index task (snapshot.live.eraseIdx from_index),
            finished := snapshot.finished }
    | _, _ => snapshot
  | .RevLiveTask pid1 pid2 =>
    match pyFindIdx (fun t => t.id == pid1) snapshot.live,
          pyFindIdx (fun t => t.id == pid2) snapshot.live with
    | some index1, some index2 =>
      let start := min index1 index2
      let stop := max index1 index2
      { live := snapshot.live.take start
          ++ ((snapshot.live.drop start).take (stop + 1 - start)).reverse
          ++ snapshot.live.drop (stop + 1),
        finished := snapshot.finished }
    | _, _ => snapshot
  | .FinishLiveTask pid pstatus =>
    match pyFindIdx (fun t => t.id == pid) snapshot.live with
    | none => snapshot
    | some task_index =>
      match snapshot.live[task_index]? with
      | none => snapshot
      | some task =>
        let new_live := snapshot.live.filter (fun t => t.id ≠ pid)
        let finished_task : FinishedTask :=
          { id := task.id, value := task.value, deadline := task.deadline,
            managed := task.managed, status := pstatus }
        { live := new_live, finished := finished_task :: snapshot.finished }

/-- A JSON value as produced by Python `json.loads`: the raw input of the
decoders in src/net_models.py.  `jobj` models a Python dict, so its field
names are assumed distinct (`json.loads` collapses duplicate keys).
Numbers are modelled as integers; `jbool` is kept separate, but note that
Python `bool` is a subclass of `int`, so `isinstance(x, (int, float))` is
true for booleans — see `pyIsNumber`. -/
inductive JValue where
  | jnull
  | jbool (b : Bool)
  | jnum (n : Int)
  | jstr (s : String)
  | jarr (xs : List JValue)
  | jobj (fields : List (String × JValue))

/-- Python `dict.get(key)`: the value stored under `key`, if any. -/
def jget : List (String × JValue) → String → Option JValue
  | [], _ => none
  | (k, v) :: rest, key => if k = key then some v else jget rest key

/-- Python `isinstance(value, (int, float))`.  True for `jbool` as well,
because Python `bool` is a subclass of `int`. -/
def pyIsNumber : JValue → Bool
  | .jnum _ => true
  | .jbool _ => true
  | _ => false

/-- Python `int(value)` on a value for which `pyIsNumber` holds. -/
def pyToInt : JValue → Int
  | .jnum n => n
  | .jbool b => if b then 1 else 0
  | _ => 0

/-- `_expect_str` from src/net_models.py. -/
def expectStr (fields : List (String × JValue)) (key : String) : Except String String :=
  match jget fields key with
  | some (.jstr s) => .ok s
  | _ => .error ("Invalid or missing " ++ key)

/-- `_expect_nullable_int` from src/net_models.py. -/
def expectNullableInt (fields : List (String × JValue)) (key : String) :
    Except String (Option Int) :=
  match jget fields key with
  | none => .error ("Invalid or missing " ++ key)
  | some .jnull => .ok none
  | some v => if pyIsNumber v then .ok (some (pyToInt v)) else .error ("Invalid " ++ key)

/-- `_expect_nullable_str` from src/net_models.py. -/
def expectNullableStr (fields : List (String × JValue)) (key : String) :
    Except String (Option String) :=
  match jget fields key with
  | none => .error ("Invalid or missing " ++ key)
  | some .jnull => .ok none
  | some (.jstr s) => .ok (some s)
  | some _ => .error ("Invalid " ++ key)

/-- The status-string check shared by `_parse_finish_payload` and
`_parse_finished_task` in src/net_models.py. -/
def statusOfString (s : String) : Except String TaskStatus :=
  if s = "Succeeded" then .ok .Succeeded
  else if s = "Failed" then .ok .Failed
  else if s = "Obsoleted" then .ok .Obsoleted
  else .error "Invalid status"

/-- `_parse_live_task` from src/net_models.py. -/
def parseLiveTask (data : JValue) : Except String LiveTask :=
  match data with
  | .jobj fields => do
    let task_id ← expectStr fields "id"
    let value ← expectStr fields "value"
    let deadline ← expectNullableInt fields "deadline"
    let managed ← expectNullableStr fields "managed"
    return { id := task_id, value := value, deadline := deadline, managed := managed }
  | _ => .error "LiveTask must be an object"

/-- `_parse_finished_task` from src/net_models.py. -/
def parseFinishedTask (data : JValue) : Except String FinishedTask :=
  match data with
  | .jobj fields => do
    let task_id ← expectStr fields "id"
    let value ← expectStr fields "value"
    let deadline ← expectNullableInt fields "deadline"
    let managed ← expectNullableStr fields "managed"
    let status_raw ← expectStr fields "status"
    let status ← statusOfString status_raw
    return { id := task_id, value := value, deadline := deadline, managed := managed,
             status := status }
  | _ => .error "FinishedTask must be an object"

/-- `_parse_state_snapshot` from src/net_models.py. -/
def parseStateSnapshot (data : JValue) : Except String StateSnapshot :=
  match data with
  | .jobj fields =>
    match jget fields "live", jget fields "finished" with
    | some (.jarr live_raw), some (.jarr finished_raw) => do
      let live ← live_raw.mapM parseLiveTask
      let finished ← finished_raw.mapM parseFinishedTask
      return { live := live, finished := finished }
    | _, _ => .error "OverwriteState requires live and finished arrays"
  | _ => .error "OverwriteState must be an object"

/-- `_parse_live_task_payload` from src/net_models.py. -/
def parseLiveTaskPayload (data : JValue) : Except String (String × String × Option Int) :=
  match data with
  | .jobj fields => do
    let task_id ← expectStr fields "id"
    let value ← expectStr fields "value"
    let deadline ← expectNullableInt fields "deadline"
    return (task_id, value, deadline)
  | _ => .error "Live task payload must be an object"

/-- `_parse_id_only_payload` from src/net_models.py. -/
def parseIdOnlyPayload (data : JValue) : Except String String :=
  match data with
  | .jobj fields => expectStr fields "id"
  | _ => .error "Payload must be an object"

/-- `_parse_move_payload` from src/net_models.py. -/
def parseMovePayload (data : JValue) : Except String (String × String) :=
  match data with
  | .jobj fields => do
    let d ← expectStr fields "id_del"
    let i ← expectStr fields "id_ins"
    return (d, i)
  | _ => .error "Move payload must be an object"

/-- `_parse_reverse_payload` from src/net_models.py. -/
def parseReversePayload (data : JValue) : Except String (String × String) :=
  match data with
  | .jobj fields => do
    let a ← expectStr fields "id1"
    let b ← expectStr fields "id2"
    return (a, b)
  | _ => .error "Reverse payload must be an object"

/-- `_parse_finish_payload` from src/net_models.py. -/
def parseFinishPayload (data : JValue) : Except String (String × TaskStatus) :=
  match data with
  | .jobj fields => do
    let task_id ← expectStr fields "id"
    let status_raw ← expectStr fields "status"
    let status ← statusOfString status_raw
    return (task_id, status)
  | _ => .error "Finish payload must be an object"

/-- `_ALLOWED_OPS` from src/net_models.py. -/
def allowedOps : List String :=
  ["OverwriteState", "InsLiveTask", "RestoreFinishedTask", "EditLiveTask",
   "DelLiveTask", "MvLiveTask", "RevLiveTask", "FinishLiveTask"]

/-- Whether the value stored under key `k` is present and non-null: Python
`key in _ALLOWED_OPS and data.get(key) is not None` with the membership
test factored out. -/
def presentNonNull (fields : List (String × JValue)) (k : String) : Bool :=
  match jget fields k with
  | some .jnull => false
  | some _ => true
  | none => false

/-- The `present` list computed by `parse_websocket_op_kind`
(src/net_models.py line 81): the keys of `kind` that are allowed operation
names bound to non-null values. -/
def presentOps (fields : List (String × JValue)) : List String :=
  (fields.map Prod.fst).filter (fun k => allowedOps.contains k && presentNonNull fields k)

/-- `parse_websocket_op_kind` from src/net_models.py (lines 77-112). -/
def parse_websocket_op_kind (data : JValue) : Except String OpKind :=
  match data with
  | .jobj fields =>
    match presentOps fields with
    | [op_key] =>
      match jget fields op_key with
      | none => .error ("Unsupported WebsocketOp kind: " ++ op_key)
      | some payload =>
        if op_key = "OverwriteState" then
          (parseStateSnapshot payload).map OpKind.OverwriteState
        else if op_key = "InsLiveTask" then
          (parseLiveTaskPayload payload).map (fun p => .InsLiveTask p.1 p.2.1 p.2.2)
        else if op_key = "RestoreFinishedTask" then
          (parseIdOnlyPayload payload).map OpKind.RestoreFinishedTask
        else if op_key = "EditLiveTask" then
          (parseLiveTaskPayload payload).map (fun p => .EditLiveTask p.1 p.2.1 p.2.2)
        else if op_key = "DelLiveTask" then
          (parseIdOnlyPayload payload).map OpKind.DelLiveTask
        else if op_key = "MvLiveTask" then
          (parseMovePayload payload).map (fun p => .MvLiveTask p.1 p.2)
        else if op_key = "RevLiveTask" then
          (parseReversePayload payload).map (fun p => .RevLiveTask p.1 p.2)
        else if op_key = "FinishLiveTask" then
          (parseFinishPayload payload).map (fun p => .FinishLiveTask p.1 p.2)
        else .error ("Unsupported WebsocketOp kind: " ++ op_key)
    | _ => .error "WebsocketOp kind must contain exactly one operation"
  | _ => .error "WebsocketOp kind must be an object"

/-- The decoded envelope `WebsocketOp` from src/net_models.py. -/
structure WebsocketOp where
  alleged_time : Int
  kind : OpKind

/-- `WebsocketOp.from_dict` from src/net_models.py (lines 49-62).  A `kind`
key that is missing maps to Python `None`, which is modelled by passing
`jnull` to `parse_websocket_op_kind` (both fail its dict check). -/
def websocketOpFromDict (data : JValue) : Except String WebsocketOp :=
  match data with
  | .jobj fields =>
    match jget fields "alleged_time" with
    | some v =>
      if pyIsNumber v then
        match parse_websocket_op_kind ((jget fields "kind").getD .jnull) with
        | .ok kind => .ok { alleged_time := pyToInt v, kind := kind }
        | .error e => .error e
      else .error "Invalid alleged_time in WebsocketOp"
    | none => .error "Invalid alleged_time in WebsocketOp"
  | _ => .error "WebsocketOp must be an object"

/-- Spec-side validity of the `alleged_time` field (claim C2): the envelope
is an object whose `alleged_time` member is an integer-like number in the
sense of the Python check `isinstance(x, (int, float))`. -/
def allegedTimeOk (data : JValue) : Bool :=
  match data with
  | .jobj fields =>
    match jget fields "alleged_time" with
    | some v => pyIsNumber v
    | none => false
  | _ => false

/-- Spec-side validity of the `kind` field (claim C2): the envelope is an
object whose `kind` member is an object containing exactly one key drawn
from the fixed operation-name set with a non-null value. -/
def kindExactlyOne (data : JValue) : Bool :=
  match data with
  | .jobj fields =>
    match jget fields "kind" with
    | some (.jobj kfields) => (presentOps kfields).length == 1
    | _ => false
  | _ => false

/-- Whether decoding succeeded (no `ValueError` was raised). -/
def exceptIsOk : Except ε α → Bool
  | .ok _ => true
  | .error _ => false

/-- Connection state discriminant of `Statusbar2App.state_type` in src/app.py. -/
inductive StateType where
  | NotLoggedIn
  | Restored
  | NotConnected
  | Connected
deriving DecidableEq

/-- `Preferences` from src/models.py. -/
structure Preferences where
  vocal_enabled : Bool
  vocal_frequency : Int
deriving DecidableEq

/-- `TodosCache` from src/models.py: the record persisted by the db
collaborator. -/
structure TodosCache where
  preferences : Preferences
  server_api_url : String
  api_key : String
deriving DecidableEq

/-- The fields of `Statusbar2App` (src/app.py) that the connection
lifecycle handlers read or write, plus the persisted cache store: `cache`
models what `self.db.load_cache()` returns (`none` when no cache exists),
and is only changed by an explicit `save_cache`/`clear_cache` call. -/
structure AppState where
  state_type : StateType
  error : Option String
  api_key : String
  session_id : String
  snapshot : StateSnapshot
  cache : Option TodosCache
deriving DecidableEq

/-- `Statusbar2App.on_ws_close` from src/app.py (lines 1406-1437), pure
part: timer/widget bookkeeping and notifications are UI effects and are
omitted.  Note that no branch writes the persisted cache. -/
def on_ws_close (st : AppState) (reason : String) : AppState :=
  let cache := st.cache
  let unauthorized := reason = "Unauthorized"
  if unauthorized || cache.isNone then
    { st with
      state_type := .NotLoggedIn,
      error := if unauthorized then some "Session expired. Please log in again." else none,
      api_key := "",
      snapshot := { live := [], finished := [] },
      session_id := "" }
  else
    { st with
      state_type := .NotConnected,
      error := some (if reason = "" then "Connection closed" else reason),
      snapshot := { live := [], finished := [] },
      session_id := "" }

/-- `Statusbar2App.on_ws_message` from src/app.py (lines 1380-1404), pure
part: the inbound frame is modelled as the JSON value `json.loads`
produced; a `json.loads` failure is covered by the decoder failing on a
non-object.  In this embedding `apply_operation` is total, so the
`except` guard around it never fires. -/
def on_ws_message (st : AppState) (payload : JValue) : AppState :=
  if st.state_type ≠ .Connected then st
  else
    match websocketOpFromDict payload with
    | .error _ => st
    | .ok ws_op => { st with snapshot := apply_operation st.snapshot ws_op.kind }

/-- `Statusbar2App.send_ws_op` from src/app.py (lines 1443-1461).
`now_millis` stands for `current_time_millis()`, `ws_open` for
`self._ws_client is not None and self._ws_client.is_open`, and `send_ok`
for the boolean result of `self._ws_client.send(raw)`.  The result is the
returned boolean, the envelope handed to the transport session (if any),
and the application state afterwards. -/
def send_ws_op (st : AppState) (now_millis : Int) (ws_open : Bool) (send_ok : Bool)
    (op_kind : OpKind) : Bool × Option WebsocketOp × AppState :=
  if st.state_type ≠ .Connected || !ws_open then (false, none, st)
  else (send_ok, some { alleged_time := now_millis, kind := op_kind }, st)

/-- The value of `datetime.now()` at second granularity: `days` is the
local day number (1970-01-01 is day 0) and `secs` the seconds elapsed
since local midnight of that day.  Timestamps are `days * 86400 + secs`;
timezones and DST are not modelled. -/
structure PyNow where
  days : Int
  secs : Int

/-- Python `int(datetime.now().timestamp())` in the model. -/
def nowTs (n : PyNow) : Int := n.days * 86400 + n.secs

/-- Python `date.weekday()` (Monday = 0) of a model day number.
1970-01-01 (day 0) is a Thursday, hence the offset 3. -/
def pyWeekday (day : Int) : Int := (day + 3) % 7

/-- Gregorian leap-year test, as used by `calendar.monthrange`. -/
def isLeap (y : Int) : Bool := (y % 4 == 0 && y % 100 != 0) || y % 400 == 0

/-- `calendar.monthrange(y, m)[1]`: the number of days of month `m`
(1-based) in year `y`. -/
def daysInMonth (y : Int) (m : Nat) : Nat :=
  if m = 2 then (if isLeap y then 29 else 28)
  else if m = 4 || m = 6 || m = 9 || m = 11 then 30
  else 31

/-- Day number of the civil date `(y, m, d)` (1970-01-01 is day 0);
the standard era-based Gregorian conversion. -/
def daysFromCivil (y : Int) (m : Nat) (d : Nat) : Int :=
  let yAdj : Int := if m ≤ 2 then y - 1 else y
  let era : Int := yAdj.fdiv 400
  let yoe : Int := yAdj - era * 400
  let mp : Int := if m > 2 then (m : Int) - 3 else (m : Int) + 9
  let doy : Int := (153 * mp + 2).fdiv 5 + (d : Int) - 1
  let doe : Int := yoe * 365 + yoe.fdiv 4 - yoe.fdiv 100 + doy
  era * 146097 + doe - 719468

/-- Civil date `(year, month, day)` of a day number; inverse of
`daysFromCivil`. -/
def civilFromDays (z : Int) : Int × Nat × Nat :=
  let z' : Int := z + 719468
  let era : Int := z'.fdiv 146097
  let doe : Int := z' - era * 146097
  let yoe : Int := (doe - doe.fdiv 1460 + doe.fdiv 36524 - doe.fdiv 146096).fdiv 365
  let y : Int := yoe + era * 400
  let doy : Int := doe - (365 * yoe + yoe.fdiv 4 - yoe.fdiv 100)
  let mp : Int := (5 * doy + 2).fdiv 153
  let d : Int := doy - (153 * mp + 2).fdiv 5 + 1
  let m : Int := if mp < 10 then mp + 3 else mp - 9
  (if m ≤ 2 then y + 1 else y, m.toNat, d.toNat)

/-- Regex `\d` restricted to ASCII digits (user command input). -/
def isDigitCh (c : Char) : Bool := c.isDigit

/-- Regex `\s`: the whitespace class of Python `re`. -/
def isSpaceCh (c : Char) : Bool :=
  c = ' ' || c = '\t' || c = '\n' || c = '\r' || c = '\x0b' || c = '\x0c'

/-- ASCII letter test for the regex class `[A-Za-z]`. -/
def isAlphaCh (c : Char) : Bool :=
  ('a' ≤ c && c ≤ 'z') || ('A' ≤ c && c ≤ 'Z')

/-- Numeric value of a digit string, as Python `int` reads it. -/
def digitsVal (ds : List Char) : Nat :=
  ds.foldl (fun a c => 10 * a + (c.toNat - 48)) 0

/-- Python `str.strip()` on a character list. -/
def pyStrip (cs : List Char) : List Char :=
  (((cs.dropWhile isSpaceCh).reverse).dropWhile isSpaceCh).reverse

/-- Python `str.split(sep)` for a one-character separator: splits at every
occurrence, keeping empty pieces. -/
def splitOnChar (sep : Char) : List Char → List (List Char)
  | [] => [[]]
  | c :: rest =>
    match splitOnChar sep rest with
    | [] => [[c]]
    | g :: gs => if c = sep then [] :: g :: gs else (c :: g) :: gs

/-- Python `" ".join(parts)`. -/
def joinWithSpace : List (List Char) → List Char
  | [] => []
  | [g] => g
  | g :: gs => g ++ ' ' :: joinWithSpace gs

/-- Python `str.lower()` (ASCII). -/
def pyLower (cs : List Char) : List Char := cs.map Char.toLower

/-- Fullmatch of `(\d+)X` for a literal trailing character `X` (the `30m`
and `2h` branches of `parse_due_command`). -/
def matchNumSuffix (suffix : Char) (cs : List Char) : Option Nat :=
  let p := cs.span isDigitCh
  if p.1.isEmpty then none
  else if p.2 = [suffix] then some (digitsVal p.1) else none

/-- Match of `\s*(am|pm)` against the whole rest of the input; returns
whether the meridiem is `pm`. -/
def matchAmPmEnd (cs : List Char) : Option Bool :=
  let rest := cs.dropWhile isSpaceCh
  if rest = ['a', 'm'] then some false
  else if rest = ['p', 'm'] then some true
  else none

/-- Match of `(?::(\d{2}))?\s*(am|pm)` against the whole rest of the
input; returns (minutes, is-pm), minutes defaulting to 0. -/
def matchClockTail (cs : List Char) : Option (Nat × Bool) :=
  match cs with
  | ':' :: rest =>
    let p := rest.span isDigitCh
    if p.1.length = 2 then (matchAmPmEnd p.2).map (fun pm => (digitsVal p.1, pm))
    else none
  | _ => (matchAmPmEnd cs).map (fun pm => (0, pm))

/-- Fullmatch of `(\d{1,2})(?::(\d{2}))?\s*(am|pm)` (branch 3 of
`parse_due_command`); returns (hour, minutes, is-pm). -/
def matchClock (cs : List Char) : Option (Nat × Nat × Bool) :=
  let p := cs.span isDigitCh
  if p.1.length = 0 || p.1.length > 2 then none
  else (matchClockTail p.2).map (fun q => (digitsVal p.1, q.1, q.2))

/-- Whether `pat` is a prefix of `cs`. -/
def startsWithChars : List Char → List Char → Bool
  | [], _ => true
  | _ :: _, [] => false
  | p :: ps, c :: cs => p = c && startsWithChars ps cs

/-- Regex alternation `(name1|name2|...)` followed by a continuation:
tries the alternatives in order and backtracks when the rest of the
pattern does not match, as Python `re` does. -/
def matchAltThen (alts : List (List Char × α)) (cont : List Char → Option β)
    (cs : List Char) : Option (α × β) :=
  match alts with
  | [] => none
  | (name, v) :: rest =>
    if startsWithChars name cs then
      match cont (cs.drop name.length) with
      | some b => some (v, b)
      | none => matchAltThen rest cont cs
    else matchAltThen rest cont cs

/-- The `_MONTHS` alternation of src/task_utils.py in Python dict order
(full names before their abbreviations), paired with 0-based month
numbers. -/
def monthsAlt : List (List Char × Nat) :=
  [("january".toList, 0), ("jan".toList, 0),
   ("february".toList, 1), ("feb".toList, 1),
   ("march".toList, 2), ("mar".toList, 2),
   ("april".toList, 3), ("apr".toList, 3),
   ("may".toList, 4),
   ("june".toList, 5), ("jun".toList, 5),
   ("july".toList, 6), ("jul".toList, 6),
   ("august".toList, 7), ("aug".toList, 7),
   ("september".toList, 8), ("sep".toList, 8),
   ("october".toList, 9), ("oct".toList, 9),
   ("november".toList, 10), ("nov".toList, 10),
   ("december".toList, 11), ("dec".toList, 11)]

/-- `_MONTHS_ABBR` from src/task_utils.py: the three-letter keys only. -/
def monthsAbbr : List (List Char × Nat) :=
  [("jan".toList, 0), ("feb".toList, 1), ("mar".toList, 2), ("apr".toList, 3),
   ("may".toList, 4), ("jun".toList, 5), ("jul".toList, 6), ("aug".toList, 7),
   ("sep".toList, 8), ("oct".toList, 9), ("nov".toList, 10), ("dec".toList, 11)]

/-- Exact-key lookup in an association list of character strings. -/
def lookupChars (alts : List (List Char × α)) (key : List Char) : Option α :=
  match alts with
  | [] => none
  | (name, v) :: rest => if name = key then some v else lookupChars rest key

/-- `_DAYS` from src/task_utils.py (Sunday-based). -/
def daysAlt : List (List Char × Nat) :=
  [("sunday".toList, 0), ("monday".toList, 1), ("tuesday".toList, 2),
   ("wednesday".toList, 3), ("thursday".toList, 4), ("friday".toList, 5),
   ("saturday".toList, 6)]

/-- Tail `\s+(\d{1,2})` of the `Jan 17` branch (branch 4). -/
def monthDayTail (cs : List Char) : Option Nat :=
  let sp := cs.span isSpaceCh
  if sp.1.isEmpty then none
  else
    let ds := sp.2.span isDigitCh
    if ds.1.length = 0 || ds.1.length > 2 then none
    else if ds.2.isEmpty then some (digitsVal ds.1) else none

/-- Tail `\s+(\d{1,2})\s+(\d{1,2})(?::(\d{2}))?\s*(am|pm)` of the
`Jan 15 5 pm` branch (branch 5); returns (day, hour, minutes, is-pm). -/
def monthDayTimeTail (cs : List Char) : Option (Nat × Nat × Nat × Bool) :=
  let sp1 := cs.span isSpaceCh
  if sp1.1.isEmpty then none
  else
    let dds := sp1.2.span isDigitCh
    if dds.1.length = 0 || dds.1.length > 2 then none
    else
      let sp2 := dds.2.span isSpaceCh
      if sp2.1.isEmpty then none
      else
        let hds := sp2.2.span isDigitCh
        if hds.1.length = 0 || hds.1.length > 2 then none
        else (matchClockTail hds.2).map
          (fun q => (digitsVal dds.1, digitsVal hds.1, q.1, q.2))

/-- Tail `\s+(\d{1,2})(?::(\d{2}))?\s*(am|pm)` of the `Monday 5pm` branch
(branch 7); returns (hour, minutes, is-pm). -/
def weekdayTimeTail (cs : List Char) : Option (Nat × Nat × Bool) :=
  let sp := cs.span isSpaceCh
  if sp.1.isEmpty then none
  else
    let hds := sp.2.span isDigitCh
    if hds.1.length = 0 || hds.1.length > 2 then none
    else (matchClockTail hds.2).map (fun q => (digitsVal hds.1, q.1, q.2))

/-- The pair of meridiem adjustments shared by branches 3, 5 and 7 of
`parse_due_command` and by `parse_deadline_input`:
`if mer == pm and hh != 12: hh += 12` then
`if mer == am and hh == 12: hh = 0`. -/
def to24 (hh : Nat) (isPm : Bool) : Nat :=
  if isPm then (if hh = 12 then 12 else hh + 12)
  else (if hh = 12 then 0 else hh)

/-- The weekday arithmetic of branches 6 and 7 of `parse_due_command`
(src/task_utils.py lines 197-207 and 222-227): days to add to reach the
next occurrence of the Sunday-based `day_index`, always in 1..7. -/
def weekdayDaysToAdd (now : PyNow) (day_index : Nat) : Int :=
  let target_weekday : Int := ((day_index : Int) - 1) % 7
  let current_day : Int := pyWeekday now.days
  let dta : Int := target_weekday - current_day
  if dta ≤ 0 then dta + 7 else dta

/-- `parse_due_command` from src/task_utils.py (lines 97-231): parses the
`d ...` command against the current time, returning an epoch-second
timestamp.  Each numbered branch mirrors the regex branch of the source. -/
def parse_due_command (now : PyNow) (input_text : String) : Option Int :=
  let parts := splitOnChar ' ' (pyStrip input_text.toList)
  if parts.length < 2 then none
  else if parts.head? ≠ some ['d'] then none
  else
    let time_str := pyLower (joinWithSpace (parts.drop 1))
    -- 1) minutes (e.g. 30m)
    match matchNumSuffix 'm' time_str with
    | some minutes => some (nowTs now + (minutes : Int) * 60)
    | none =>
    -- 2) hours (e.g. 2h)
    match matchNumSuffix 'h' time_str with
    | some hours => some (nowTs now + (hours : Int) * 3600)
    | none =>
    let today : Int := now.days * 86400
    -- 3) absolute times (e.g. 8am, 3:30 pm)
    match matchClock time_str with
    | some c3 =>
      let hh := to24 c3.1 c3.2.2
      let target : Int := today + (hh : Int) * 3600 + (c3.2.1 : Int) * 60
      some (if target ≤ nowTs now then target + 86400 else target)
    | none =>
    -- 4) dates (e.g. Jan 17)
    match matchAltThen monthsAlt monthDayTail time_str with
    | some c4 =>
      let month0 := c4.1
      let day := c4.2
      let year := (civilFromDays now.days).1
      if day < 1 || daysInMonth year (month0 + 1) < day then none
      else
        let target : Int := daysFromCivil year (month0 + 1) day * 86400
        if target ≤ nowTs now then
          if daysInMonth (year + 1) (month0 + 1) < day then none
          else some (daysFromCivil (year + 1) (month0 + 1) day * 86400)
        else some target
    | none =>
    -- 5) dates + times (e.g. Jan 15 5 pm, Nov 30 1:05 am)
    match matchAltThen monthsAlt monthDayTimeTail time_str with
    | some c5 =>
      let month0 := c5.1
      let day := c5.2.1
      let hh0 := c5.2.2.1
      let mm := c5.2.2.2.1
      if hh0 < 1 || hh0 > 12 || mm > 59 then none
      else
        let hh := to24 hh0 c5.2.2.2.2
        let year := (civilFromDays now.days).1
        if day < 1 || daysInMonth year (month0 + 1) < day then none
        else
          let target : Int :=
            daysFromCivil year (month0 + 1) day * 86400 + (hh : Int) * 3600 + (mm : Int) * 60
          if target ≤ nowTs now then
            if daysInMonth (year + 1) (month0 + 1) < day then none
            else some (daysFromCivil (year + 1) (month0 + 1) day * 86400
              + (hh : Int) * 3600 + (mm : Int) * 60)
          else some target
    | none =>
    -- 6) days of week (e.g. Monday)
    match lookupChars daysAlt time_str with
    | some day_index => some ((now.days + weekdayDaysToAdd now day_index) * 86400)
    | none =>
    -- 7) day of week + time (e.g. Monday 5pm)
    match matchAltThen daysAlt weekdayTimeTail time_str with
    | some c7 =>
      let hh := to24 c7.2.1 c7.2.2.2
      some ((now.days + weekdayDaysToAdd now c7.1) * 86400
        + (hh : Int) * 3600 + (c7.2.2.1 : Int) * 60)
    | none => none

/-- The capture groups of the `parse_deadline_input` regex
`([A-Za-z]{3})\s+(\d{1,2}),\s*(\d{4})\s+(\d{1,2}):(\d{2})\s*([AaPp][Mm])`. -/
structure DeadlineFields where
  mon : List Char
  day : Nat
  year : Nat
  hour : Nat
  minute : Nat
  isPm : Bool
deriving DecidableEq

/-- Fullmatch of the `parse_deadline_input` display format regex. -/
def matchDeadline (cs : List Char) : Option DeadlineFields :=
  match cs with
  | a :: b :: c :: rest =>
    if isAlphaCh a && isAlphaCh b && isAlphaCh c then
      let sp1 := rest.span isSpaceCh
      if sp1.1.isEmpty then none
      else
        let dds := sp1.2.span isDigitCh
        if dds.1.length = 0 || dds.1.length > 2 then none
        else
          match dds.2 with
          | ',' :: r3 =>
            let r4 := r3.dropWhile isSpaceCh
            let yds := r4.span isDigitCh
            if yds.1.length ≠ 4 then none
            else
              let sp2 := yds.2.span isSpaceCh
              if sp2.1.isEmpty then none
              else
                let hds := sp2.2.span isDigitCh
                if hds.1.length = 0 || hds.1.length > 2 then none
                else
                  match hds.2 with
                  | ':' :: r8 =>
                    let mds := r8.span isDigitCh
                    if mds.1.length ≠ 2 then none
                    else
                      match mds.2.dropWhile isSpaceCh with
                      | [p, m] =>
                        if (p = 'A' || p = 'a' || p = 'P' || p = 'p')
                            && (m = 'M' || m = 'm') then
                          some { mon := [a, b, c], day := digitsVal dds.1,
                                 year := digitsVal yds.1, hour := digitsVal hds.1,
                                 minute := digitsVal mds.1, isPm := p = 'P' || p = 'p' }
                        else none
                      | _ => none
                  | _ => none
          | _ => none
    else none
  | _ => none

/-- Whether the captured fields build a valid `datetime`: the month
abbreviation is known, hour and minute are in range, and
`datetime(year, month, day, hour, minute, 0)` does not raise. -/
def deadlineFieldsValid (f : DeadlineFields) : Bool :=
  match lookupChars monthsAbbr (pyLower f.mon) with
  | none => false
  | some month0 =>
    !(f.hour < 1 || f.hour > 12 || f.minute > 59)
      && !(f.year < 1 || f.day < 1 || daysInMonth (f.year : Int) (month0 + 1) < f.day)

/-- The epoch timestamp denoted by valid deadline fields. -/
def deadlineFieldsTs (f : DeadlineFields) : Int :=
  match lookupChars monthsAbbr (pyLower f.mon) with
  | none => 0
  | some month0 =>
    daysFromCivil (f.year : Int) (month0 + 1) f.day * 86400
      + (to24 f.hour f.isPm : Int) * 3600 + (f.minute : Int) * 60

/-- `parse_deadline_input` from src/task_utils.py (lines 234-282): the
strict DatePicker-format parser.  `dt_obj.date()` comparisons against
`today` are modelled as day-number comparisons. -/
def parse_deadline_input (now : PyNow) (raw : String) : Option Int :=
  let cs := pyStrip raw.toList
  if cs.isEmpty then none
  else
    match matchDeadline cs with
    | none => none
    | some f =>
      match lookupChars monthsAbbr (pyLower f.mon) with
      | none => none
      | some month0 =>
        if f.hour < 1 || f.hour > 12 || f.minute > 59 then none
        else
          -- datetime(year, month, day, hour, minute, 0): ValueError when the
          -- year is below MINYEAR or the day does not exist in the month
          if f.year < 1 || f.day < 1 || daysInMonth (f.year : Int) (month0 + 1) < f.day then none
          else
            let dtDays : Int := daysFromCivil (f.year : Int) (month0 + 1) f.day
            let dtTs : Int :=
              dtDays * 86400 + (to24 f.hour f.isPm : Int) * 3600 + (f.minute : Int) * 60
            if dtDays < now.days then none
            else if dtDays = now.days && dtTs ≤ nowTs now then none
            else some dtTs

/-- IDs appearing in a snapshot, live first then finished: the carrier of
the uniqueness invariant of claim C5. -/
def snapshotIds (s : StateSnapshot) : List String :=
  s.live.map LiveTask.id ++ s.finished.map FinishedTask.id

/-- The uniqueness invariant: every task id appears in at most one of
`live`/`finished`, and at most once overall. -/
@[reducible] def idsUnique (s : StateSnapshot) : Prop := (snapshotIds s).Nodup

/-- Side condition of claim C5 on the operation being applied, amended:
an inserted id must be fresh, and an overwriting snapshot must itself
satisfy the invariant. -/
@[reducible] def opWellFormed (s : StateSnapshot) : OpKind → Prop
  | .InsLiveTask pid _ _ => pid ∉ snapshotIds s
  | .OverwriteState s2 => idsUnique s2
  | _ => True

/-- Whether the id targeted by an operation is absent from the relevant
list (claim C4): live for Edit/Del/Mv/Rev/Finish, finished for Restore. -/
def opTargetAbsent (s : StateSnapshot) : OpKind → Bool
  | .EditLiveTask pid _ _ => s.live.all (fun t => t.id != pid)
  | .DelLiveTask pid => s.live.all (fun t => t.id != pid)
  | .MvLiveTask id_del id_ins =>
    s.live.all (fun t => t.id != id_del) || s.live.all (fun t => t.id != id_ins)
  | .RevLiveTask pid1 pid2 =>
    s.live.all (fun t => t.id != pid1) || s.live.all (fun t => t.id != pid2)
  | .FinishLiveTask pid _ => s.live.all (fun t => t.id != pid)
  | .RestoreFinishedTask pid => s.finished.all (fun t => t.id != pid)
  | _ => false

/-- Sample tasks used by concrete instances below. -/
def taskA : LiveTask := { id := "a", value := "A", deadline := none, managed := none }

def taskA2 : LiveTask := { id := "a", value := "A2", deadline := none, managed := none }

def taskB : LiveTask := { id := "b", value := "B", deadline := none, managed := none }

def taskC : LiveTask := { id := "c", value := "C", deadline := none, managed := none }

/-- Sample snapshot `[a, b, c]` from the spec example for `MvLiveTask`. -/
def snapABC : StateSnapshot := { live := [taskA, taskB, taskC], finished := [] }

/-- Sample snapshot with a duplicated live id. -/
def snapDup : StateSnapshot := { live := [taskA, taskA2, taskB], finished := [] }

/-- Sample cache record. -/
def cache0 : TodosCache :=
  { preferences := { vocal_enabled := false, vocal_frequency := 300 },
    server_api_url := "https://example.test/api", api_key := "key0" }

/-- Sample connected application state holding a persisted cache. -/
def appSt0 : AppState :=
  { state_type := .Connected, error := none, api_key := "key0",
    session_id := "sess", snapshot := snapABC, cache := some cache0 }

/-- Sample envelope whose kind holds two allowed operations. -/
def envTwoOps : JValue :=
  .jobj [("alleged_time", .jnum 5),
         ("kind", .jobj [("DelLiveTask", .jobj [("id", .jstr "x")]),
                         ("InsLiveTask", .jobj [("id", .jstr "y"), ("value", .jstr "v"),
                                                ("deadline", .jnull)])])]

/-- Sample well-formed envelope. -/
def envOk : JValue :=
  .jobj [("alleged_time", .jnum 5),
         ("kind", .jobj [("DelLiveTask", .jobj [("id", .jstr "x")])])]

/-- Weekday command words recognised by branch 6 of `parse_due_command`. -/
def daysStrings : List String :=
  ["sunday", "monday", "tuesday", "wednesday", "thursday", "friday", "saturday"]

example : daysFromCivil 1970 1 1 = 0 := by decide
example : civilFromDays 0 = (1970, 1, 1) := by decide
example : daysFromCivil 2024 1 5 = 19727 := by decide
example : civilFromDays 19727 = (2024, 1, 5) := by decide
example : pyWeekday 19727 = 4 := by decide
example : daysFromCivil 2024 2 29 = 19782 := by decide
example : civilFromDays 19782 = (2024, 2, 29) := by decide

example :
    apply_operation
      { live := [⟨"a", "A", none, none⟩, ⟨"b", "B", none, none⟩, ⟨"c", "C", none, none⟩],
        finished := [] }
      (.MvLiveTask "a" "c")
    = { live := [⟨"b", "B", none, none⟩, ⟨"c", "C", none, none⟩, ⟨"a", "A", none, none⟩],
        finished := [] } := by decide

example :
    apply_operation
      { live := [⟨"a", "A", none, none⟩, ⟨"b", "B", none, none⟩, ⟨"c", "C", none, none⟩,
                 ⟨"d", "D", none, none⟩, ⟨"e", "E", none, none⟩],
        finished := [] }
      (.RevLiveTask "b" "d")
    = { live := [⟨"a", "A", none, none⟩, ⟨"d", "D", none, none⟩, ⟨"c", "C", none, none⟩,
                 ⟨"b", "B", none, none⟩, ⟨"e", "E", none, none⟩],
        finished := [] } := by decide

/-! Helper lemmas about `pyFindIdx`, `pyInsert`, `eraseIdx` and slice
reversal, used by the claim theorems below. -/

theorem pyFindIdx_none_iff (p : α → Bool) (l : List α) :
    pyFindIdx p l = none ↔ ∀ a ∈ l, p a = false := by
  induction l with
  | nil => simp [pyFindIdx]
  | cons a t ih =>
    cases hpa : p a with
    | true =>
      simp only [pyFindIdx, hpa, if_true]
      constructor
      · intro h; cases h
      · intro h
        have := h a (List.mem_cons_self a t)
        rw [hpa] at this; cases this
    | false =>
      simp only [pyFindIdx, hpa, if_false]
      constructor
      · intro h x hx
        rcases List.mem_cons.mp hx with he | ht
        · rw [he]; exact hpa
        · have hnone : pyFindIdx p t = none := by
            cases hft : pyFindIdx p t with
            | none => rfl
            | some m => rw [hft] at h; cases h
          exact (ih.mp hnone) x ht
      · intro h
        have hnone : pyFindIdx p t = none :=
          ih.mpr (fun x hx => h x (List.mem_cons_of_mem a hx))
        rw [hnone]; rfl

theorem pyFindIdx_eq_some (p : α → Bool) (l : List α) (i : Nat) :
    pyFindIdx p l = some i ↔
      (∃ a, l[i]? = some a ∧ p a = true) ∧
      ∀ j, j < i → ∀ a, l[j]? = some a → p a = false := by
  induction l generalizing i with
  | nil => simp [pyFindIdx]
  | cons a t ih =>
    cases hpa : p a with
    | true =>
      simp only [pyFindIdx, hpa, if_true]
      constructor
      · intro h
        injection h with h
        subst h
        exact ⟨⟨a, by simp, hpa⟩, fun j hj => absurd hj (Nat.not_lt_zero j)⟩
      · rintro ⟨⟨b, hb, hpb⟩, hmin⟩
        cases i with
        | zero => rfl
        | succ n =>
          have := hmin 0 (Nat.succ_pos n) a (by simp)
          rw [hpa] at this; cases this
    | false =>
      simp only [pyFindIdx, hpa, if_false]
      constructor
      · intro h
        cases hft : pyFindIdx p t with
        | none => rw [hft] at h; cases h
        | some m =>
          rw [hft] at h
          have hi : m + 1 = i := by simpa using h
          subst hi
          obtain ⟨⟨b, hb, hpb⟩, hmin⟩ := (ih m).mp hft
          refine ⟨⟨b, by simpa using hb, hpb⟩, ?_⟩
          intro j hj c hc
          cases j with
          | zero =>
            have hca : a = c := by simpa using hc
            rw [← hca]; exact hpa
          | succ k =>
            exact hmin k (by omega) c (by simpa using hc)
      · rintro ⟨⟨b, hb, hpb⟩, hmin⟩
        cases i with
        | zero =>
          have hab : a = b := by simpa using hb
          rw [← hab] at hpb
          rw [hpa] at hpb; cases hpb
        | succ n =>
          have hft : pyFindIdx p t = some n := by
            refine (ih n).mpr ⟨⟨b, by simpa using hb, hpb⟩, ?_⟩
            intro j hj c hc
            exact hmin (j + 1) (by omega) c (by simpa using hc)
          rw [hft]; rfl

theorem pyFindIdx_lt_length {p : α → Bool} {l : List α} {i : Nat}
    (h : pyFindIdx p l = some i) : i < l.length := by
  obtain ⟨⟨a, ha, _⟩, _⟩ := (pyFindIdx_eq_some p l i).mp h
  obtain ⟨hlt, _⟩ := List.getElem?_eq_some_iff.mp ha
  exact hlt

theorem perm_cons_eraseIdx {l : List α} :
    ∀ {i : Nat} {a : α}, l[i]? = some a → l.Perm (a :: l.eraseIdx i) := by
  induction l with
  | nil => intro i a h; simp at h
  | cons b t ih =>
    intro i a h
    cases i with
    | zero =>
      have hba : b = a := by simpa using h
      subst hba
      exact List.Perm.refl _
    | succ n =>
      have h' : t[n]? = some a := by simpa using h
      have h1 : (b :: t).Perm (b :: a :: t.eraseIdx n) := (ih h').cons b
      have h2 : (b :: a :: t.eraseIdx n).Perm (a :: b :: t.eraseIdx n) :=
        List.Perm.swap a b (t.eraseIdx n)
      have h3 : (b :: t).Perm (a :: b :: t.eraseIdx n) := h1.trans h2
      simpa [List.eraseIdx] using h3

theorem pyInsert_perm (n : Nat) (x : α) (l : List α) : (pyInsert n x l).Perm (x :: l) := by
  induction l generalizing n with
  | nil => simp [pyInsert]
  | cons a t ih =>
    cases n with
    | zero => exact List.Perm.refl _
    | succ m =>
      have h1 : (a :: pyInsert m x t).Perm (a :: x :: t) := (ih m).cons a
      have h2 : (a :: x :: t).Perm (x :: a :: t) := List.Perm.swap x a t
      exact h1.trans h2

theorem take_middle_drop (a b : Nat) (l : List α) :
    l.take a ++ ((l.drop a).take b ++ l.drop (a + b)) = l := by
  have h1 : l.drop (a + b) = (l.drop a).drop b := (List.drop_drop b a l).symm
  rw [h1, List.take_append_drop, List.take_append_drop]

theorem revSection_length {l : List α} {s e : Nat} (hse : s ≤ e) (hel : e < l.length) :
    (l.take s ++ (((l.drop s).take (e + 1 - s)).reverse ++ l.drop (e + 1))).length
      = l.length := by
  simp
  omega

theorem getElem?_revSection {l : List α} {s e : Nat} (hse : s ≤ e) (hel : e < l.length)
    (m : Nat) :
    (l.take s ++ (((l.drop s).take (e + 1 - s)).reverse ++ l.drop (e + 1)))[m]? =
      if m < s then l[m]? else if m ≤ e then l[s + e - m]? else l[m]? := by
  have hlenA : (l.take s).length = s := by simp; omega
  have hlenM : ((l.drop s).take (e + 1 - s)).length = e + 1 - s := by simp; omega
  have hlenR : (((l.drop s).take (e + 1 - s)).reverse).length = e + 1 - s := by
    rw [List.length_reverse, hlenM]
  by_cases h1 : m < s
  · rw [List.getElem?_append_left (by rw [hlenA]; exact h1)]
    rw [List.getElem?_take_of_lt h1]
    simp [h1]
  · by_cases h2 : m ≤ e
    · rw [List.getElem?_append_right (by rw [hlenA]; omega)]
      rw [hlenA]
      rw [List.getElem?_append_left (by rw [hlenR]; omega)]
      rw [List.getElem?_reverse (by rw [hlenM]; omega)]
      rw [hlenM]
      have he1 : e + 1 - s - 1 - (m - s) = e - m := by omega
      rw [he1]
      rw [List.getElem?_take_of_lt (by omega : e - m < e + 1 - s)]
      rw [List.getElem?_drop]
      have he2 : s + (e - m) = s + e - m := by omega
      rw [he2]
      simp [h1, h2]
    · rw [List.getElem?_append_right (by rw [hlenA]; omega)]
      rw [hlenA]
      rw [List.getElem?_append_right (by rw [hlenR]; omega)]
      rw [hlenR, List.getElem?_drop]
      have he3 : e + 1 + (m - s - (e + 1 - s)) = m := by omega
      rw [he3]
      simp [h1, h2]

theorem two_le_countP {p : α → Bool} : ∀ {l : List α} {i j : Nat} {a b : α},
    i < j → l[i]? = some a → p a = true → l[j]? = some b → p b = true →
      2 ≤ l.countP p := by
  intro l
  induction l with
  | nil => intro i j a b hij ha hpa hb hpb; simp at ha
  | cons c t ih =>
    intro i j a b hij ha hpa hb hpb
    cases i with
    | zero =>
      have hca : c = a := by simpa using ha
      cases j with
      | zero => omega
      | succ k =>
        have hb' : t[k]? = some b := by simpa using hb
        have hpos : 0 < t.countP p :=
          List.countP_pos_iff.mpr ⟨b, List.getElem?_mem hb', hpb⟩
        rw [List.countP_cons, hca, hpa]
        have hone : (if (true = true) then 1 else 0) = 1 := rfl
        rw [hone]
        omega
    | succ n =>
      cases j with
      | zero => omega
      | succ k =>
        have ha' : t[n]? = some a := by simpa using ha
        have hb' : t[k]? = some b := by simpa using hb
        have := ih (by omega : n < k) ha' hpa hb' hpb
        rw [List.countP_cons]
        omega

theorem countP_le_one_unique {p : α → Bool} {l : List α} (h : l.countP p ≤ 1)
    {i j : Nat} {a b : α} (ha : l[i]? = some a) (hpa : p a = true)
    (hb : l[j]? = some b) (hpb : p b = true) : i = j := by
  rcases Nat.lt_trichotomy i j with hij | hij | hij
  · exact absurd (two_le_countP hij ha hpa hb hpb) (by omega)
  · exact hij
  · exact absurd (two_le_countP hij hb hpb ha hpa) (by omega)

theorem bne_true_beq_false {x y : String} (h : (x != y) = true) : (x == y) = false := by
  simp only [bne_iff_ne, ne_eq] at h
  simp only [beq_eq_false_iff_ne, ne_eq]
  exact h

/-- C1: for a snapshot whose live list contains `id_del` at position `i`
and `id_ins` at position `j` (both indices resolved in the original live
order) with `i ≠ j`, `MvLiveTask` removes the element at `i` and inserts
it at position `j` of the shortened list (`j` is not re-resolved); if
either id is absent or the two positions coincide, the snapshot is
returned unchanged. -/
theorem mvLiveTask_inserts_at_pre_removal_index (s : StateSnapshot) (id_del id_ins : String) :
    (∀ i j task,
      pyFindIdx (fun t => t.id == id_del) s.live = some i →
      pyFindIdx (fun t => t.id == id_ins) s.live = some j →
      i ≠ j → s.live[i]? = some task →
      apply_operation s (.MvLiveTask id_del id_ins) =
        { live := pyInsert j task (s.live.eraseIdx i), finished := s.finished })
    ∧ ((pyFindIdx (fun t => t.id == id_del) s.live = none ∨
        pyFindIdx (fun t => t.id == id_ins) s.live = none ∨
        pyFindIdx (fun t => t.id == id_del) s.live
          = pyFindIdx (fun t => t.id == id_ins) s.live) →
      apply_operation s (.MvLiveTask id_del id_ins) = s) := by
  constructor
  · intro i j task hi hj hij htask
    simp only [apply_operation, hi, hj, if_neg hij, htask]
  · intro h
    rcases h with h | h | h
    · simp only [apply_operation, h]
    · cases hdel : pyFindIdx (fun t => t.id == id_del) s.live with
      | none => simp only [apply_operation, hdel]
      | some i => simp only [apply_operation, hdel, h]
    · cases hdel : pyFindIdx (fun t => t.id == id_del) s.live with
      | none => simp only [apply_operation, hdel]
      | some i =>
        rw [hdel] at h
        simp [apply_operation, hdel, ← h]

/-- C1 witness: the spec example `apply({live:[a,b,c]}, MvLiveTask(a, c))`
yields live order `[b, c, a]`, obtained through the main theorem. -/
theorem mvLiveTask_inserts_at_pre_removal_index_witness :
    apply_operation snapABC (.MvLiveTask "a" "c")
      = { live := [taskB, taskC, taskA], finished := [] } := by
  have h := (mvLiveTask_inserts_at_pre_removal_index snapABC "a" "c").1 0 2 taskA
    (by decide) (by decide) (by decide) (by decide)
  rw [h]
  decide

/-- C4: the reducer is deterministic (equal inputs give equal outputs; in
this embedding it is a total function, so it cannot throw), and applying
an operation whose target id is absent from the relevant list returns a
snapshot equal to the input. -/
theorem apply_operation_deterministic_noop (s1 s2 : StateSnapshot) (k1 k2 : OpKind)
    (hs : s1 = s2) (hk : k1 = k2) :
    apply_operation s1 k1 = apply_operation s2 k2
    ∧ (opTargetAbsent s1 k1 = true → apply_operation s1 k1 = s1) := by
  subst hs; subst hk
  refine ⟨rfl, ?_⟩
  intro habs
  cases k1 with
  | OverwriteState s2 => simp [opTargetAbsent] at habs
  | InsLiveTask pid v d => simp [opTargetAbsent] at habs
  | EditLiveTask pid v d =>
    simp only [opTargetAbsent, List.all_eq_true] at habs
    simp only [apply_operation]
    have hmap : s1.live.map (editTask pid v d) = s1.live := by
      have hpt : ∀ t ∈ s1.live, editTask pid v d t = id t := by
        intro t ht
        have hne : t.id ≠ pid := by simpa using habs t ht
        show editTask pid v d t = t
        unfold editTask
        rw [if_pos hne]
      rw [List.map_congr_left hpt, List.map_id]
    rw [hmap]
  | DelLiveTask pid =>
    simp only [opTargetAbsent, List.all_eq_true] at habs
    simp only [apply_operation]
    have hf : s1.live.filter (fun t => t.id ≠ pid) = s1.live := by
      rw [List.filter_eq_self]
      intro a ha
      simpa using habs a ha
    rw [hf]
  | MvLiveTask idd idi =>
    simp only [opTargetAbsent, Bool.or_eq_true, List.all_eq_true] at habs
    rcases habs with h | h
    · have hnone : pyFindIdx (fun t => t.id == idd) s1.live = none :=
        (pyFindIdx_none_iff _ _).mpr (fun a ha => bne_true_beq_false (h a ha))
      simp only [apply_operation, hnone]
    · have hnone : pyFindIdx (fun t => t.id == idi) s1.live = none :=
        (pyFindIdx_none_iff _ _).mpr (fun a ha => bne_true_beq_false (h a ha))
      cases hdel : pyFindIdx (fun t => t.id == idd) s1.live with
      | none => simp only [apply_operation, hdel]
      | some i => simp only [apply_operation, hdel, hnone]
  | RevLiveTask ida idb =>
    simp only [opTargetAbsent, Bool.or_eq_true, List.all_eq_true] at habs
    rcases habs with h | h
    · have hnone : pyFindIdx (fun t => t.id == ida) s1.live = none :=
        (pyFindIdx_none_iff _ _).mpr (fun a ha => bne_true_beq_false (h a ha))
      simp only [apply_operation, hnone]
    · have hnone : pyFindIdx (fun t => t.id == idb) s1.live = none :=
        (pyFindIdx_none_iff _ _).mpr (fun a ha => bne_true_beq_false (h a ha))
      cases hdel : pyFindIdx (fun t => t.id == ida) s1.live with
      | none => simp only [apply_operation, hdel]
      | some i => simp only [apply_operation, hdel, hnone]
  | FinishLiveTask pid st =>
    simp only [opTargetAbsent, List.all_eq_true] at habs
    have hnone : pyFindIdx (fun t => t.id == pid) s1.live = none :=
      (pyFindIdx_none_iff _ _).mpr (fun a ha => bne_true_beq_false (habs a ha))
    simp only [apply_operation, hnone]
  | RestoreFinishedTask pid =>
    simp only [opTargetAbsent, List.all_eq_true] at habs
    have hnone : pyFindIdx (fun t => t.id == pid) s1.finished = none :=
      (pyFindIdx_none_iff _ _).mpr (fun a ha => bne_true_beq_false (habs a ha))
    simp only [apply_operation, hnone]

/-- C4 witness: deleting an id that is not present leaves the concrete
snapshot `[a, b, c]` unchanged, obtained through the main theorem. -/
theorem apply_operation_deterministic_noop_witness :
    apply_operation snapABC (.DelLiveTask "zzz") = snapABC :=
  (apply_operation_deterministic_noop snapABC snapABC
    (.DelLiveTask "zzz") (.DelLiveTask "zzz") rfl rfl).2 (by decide)

/-- C3 counterexample: closing with reason "Unauthorized" moves the state
machine to NotLoggedIn but does NOT clear the persisted cache — the cache
record is still present afterwards, contradicting the claim that an
unauthorized close clears the cache (`db.clear_cache` is only called from
`logout`, src/app.py line 1259, never from `on_ws_close`). -/
theorem on_ws_close_unauthorized_keeps_cache :
    appSt0.cache = some cache0 ∧
    (on_ws_close appSt0 "Unauthorized").state_type = .NotLoggedIn ∧
    (on_ws_close appSt0 "Unauthorized").cache = some cache0 := by
  refine ⟨rfl, rfl, rfl⟩

/-- C3 amended: on close with an unauthorized reason the state machine
transitions to NotLoggedIn with a session-expired error and clears the
in-memory API key but leaves the persisted cache in place; with any other
reason and no cache it transitions to NotLoggedIn with no error; otherwise
it transitions to NotConnected carrying the close reason (or "Connection
closed" when the reason is empty), preserving the API key. -/
theorem on_ws_close_state_transitions (st : AppState) (reason : String) :
    (reason = "Unauthorized" →
      (on_ws_close st reason).state_type = .NotLoggedIn ∧
      (on_ws_close st reason).error = some "Session expired. Please log in again." ∧
      (on_ws_close st reason).api_key = "" ∧
      (on_ws_close st reason).cache = st.cache)
    ∧ (reason ≠ "Unauthorized" → st.cache = none →
      (on_ws_close st reason).state_type = .NotLoggedIn ∧
      (on_ws_close st reason).error = none ∧
      (on_ws_close st reason).cache = st.cache)
    ∧ (reason ≠ "Unauthorized" → st.cache ≠ none →
      (on_ws_close st reason).state_type = .NotConnected ∧
      (on_ws_close st reason).error
        = some (if reason = "" then "Connection closed" else reason) ∧
      (on_ws_close st reason).api_key = st.api_key ∧
      (on_ws_close st reason).cache = st.cache) := by
  refine ⟨?_, ?_, ?_⟩
  · intro h
    simp [on_ws_close, h]
  · intro h hc
    simp [on_ws_close, h, hc]
  · intro h hc
    obtain ⟨c, hcl⟩ := Option.ne_none_iff_exists'.mp hc
    simp [on_ws_close, h, hcl]

/-- C3 witness: a non-empty, non-unauthorized close reason on a state
holding a cache moves to NotConnected with the reason as error and keeps
the API key, via the main theorem. -/
theorem on_ws_close_state_transitions_witness :
    (on_ws_close appSt0 "gone").state_type = .NotConnected ∧
    (on_ws_close appSt0 "gone").error
      = some (if ("gone" : String) = "" then "Connection closed" else "gone") ∧
    (on_ws_close appSt0 "gone").api_key = appSt0.api_key ∧
    (on_ws_close appSt0 "gone").cache = appSt0.cache :=
  (on_ws_close_state_transitions appSt0 "gone").2.2 (by decide) (by decide)

/-- C8: sending an outbound operation never changes the application state
(in particular the snapshot); an envelope is handed to the transport only
while Connected, stamped with the given client-local millisecond clock
value and carrying the operation unchanged; and handling an inbound
message either leaves the snapshot unchanged or (only while Connected,
with a successfully decoded envelope) replaces it with the reduction of
the decoded operation. -/
theorem send_recv_snapshot_discipline (st : AppState) (now_millis : Int)
    (ws_open send_ok : Bool) (opk : OpKind) :
    (send_ws_op st now_millis ws_open send_ok opk).2.2 = st
    ∧ (∀ m, (send_ws_op st now_millis ws_open send_ok opk).2.1 = some m →
        st.state_type = .Connected ∧ m.alleged_time = now_millis ∧ m.kind = opk)
    ∧ ∀ payload : JValue,
        (on_ws_message st payload).snapshot = st.snapshot
        ∨ ∃ op, websocketOpFromDict payload = .ok op ∧ st.state_type = .Connected ∧
            (on_ws_message st payload).snapshot = apply_operation st.snapshot op.kind := by
  refine ⟨?_, ?_, ?_⟩
  · unfold send_ws_op
    split <;> rfl
  · intro m hm
    by_cases hc : st.state_type = .Connected
    · cases ws_open with
      | false => simp [send_ws_op, hc] at hm
      | true =>
        simp [send_ws_op, hc] at hm
        rw [← hm]
        exact ⟨hc, rfl, rfl⟩
    · simp [send_ws_op, hc] at hm
  · intro payload
    by_cases hc : st.state_type = .Connected
    · cases hop : websocketOpFromDict payload with
      | error e =>
        left
        simp [on_ws_message, hc, hop]
      | ok op =>
        right
        exact ⟨op, rfl, hc, by simp [on_ws_message, hc, hop]⟩
    · left
      simp [on_ws_message, hc]

/-- C8 witness: on a concrete connected state, sending returns the state
unchanged and the emitted envelope carries the given clock value, via the
main theorem. -/
theorem send_recv_snapshot_discipline_witness :
    (send_ws_op appSt0 5 true true (.DelLiveTask "x")).2.2 = appSt0 ∧
    appSt0.state_type = .Connected :=
  ⟨(send_recv_snapshot_discipline appSt0 5 true true (.DelLiveTask "x")).1,
   ((send_recv_snapshot_discipline appSt0 5 true true (.DelLiveTask "x")).2.1
     { alleged_time := 5, kind := .DelLiveTask "x" } rfl).1⟩

/-- C2: decoding a raw envelope succeeds only if `alleged_time` is an
integer-like number (Python `isinstance(x, (int, float))`) and `kind` is
an object containing exactly one key drawn from the fixed operation-name
set with a non-null value; when either condition fails — no matches,
several matches, only unknown keys, or a wrong field type — the whole
envelope is rejected with a `ValueError` and, the decoder being a pure
function into `Except`, nothing is partially applied. -/
theorem decode_envelope_exactly_one (v : JValue) :
    (exceptIsOk (websocketOpFromDict v) = true →
      allegedTimeOk v = true ∧ kindExactlyOne v = true)
    ∧ ((allegedTimeOk v = false ∨ kindExactlyOne v = false) →
      ∃ e, websocketOpFromDict v = .error e) := by
  cases v with
  | jnull =>
    exact ⟨by intro h; simp [websocketOpFromDict, exceptIsOk] at h,
      fun _ => ⟨"WebsocketOp must be an object", rfl⟩⟩
  | jbool b =>
    exact ⟨by intro h; simp [websocketOpFromDict, exceptIsOk] at h,
      fun _ => ⟨"WebsocketOp must be an object", rfl⟩⟩
  | jnum n =>
    exact ⟨by intro h; simp [websocketOpFromDict, exceptIsOk] at h,
      fun _ => ⟨"WebsocketOp must be an object", rfl⟩⟩
  | jstr s =>
    exact ⟨by intro h; simp [websocketOpFromDict, exceptIsOk] at h,
      fun _ => ⟨"WebsocketOp must be an object", rfl⟩⟩
  | jarr xs =>
    exact ⟨by intro h; simp [websocketOpFromDict, exceptIsOk] at h,
      fun _ => ⟨"WebsocketOp must be an object", rfl⟩⟩
  | jobj fields =>
    cases hat : jget fields "alleged_time" with
    | none =>
      constructor
      · intro h
        simp [websocketOpFromDict, hat, exceptIsOk] at h
      · intro _
        exact ⟨"Invalid alleged_time in WebsocketOp", by simp [websocketOpFromDict, hat]⟩
    | some av =>
      cases hnum : pyIsNumber av with
      | false =>
        constructor
        · intro h
          simp [websocketOpFromDict, hat, hnum, exceptIsOk] at h
        · intro _
          exact ⟨"Invalid alleged_time in WebsocketOp", by
            simp [websocketOpFromDict, hat, hnum]⟩
      | true =>
        have hATok : allegedTimeOk (.jobj fields) = true := by
          simp [allegedTimeOk, hat, hnum]
        cases hk : jget fields "kind" with
        | none =>
          constructor
          · intro h
            simp [websocketOpFromDict, hat, hnum, hk, parse_websocket_op_kind,
              exceptIsOk] at h
          · intro _
            exact ⟨"WebsocketOp kind must be an object", by
              simp [websocketOpFromDict, hat, hnum, hk, parse_websocket_op_kind]⟩
        | some kv =>
          cases kv with
          | jobj kfields =>
            cases hp : presentOps kfields with
            | nil =>
              constructor
              · intro h
                simp [websocketOpFromDict, hat, hnum, hk, parse_websocket_op_kind,
                  hp, exceptIsOk] at h
              · intro _
                exact ⟨"WebsocketOp kind must contain exactly one operation", by
                  simp [websocketOpFromDict, hat, hnum, hk, parse_websocket_op_kind, hp]⟩
            | cons k1 rest =>
              cases rest with
              | nil =>
                have hKok : kindExactlyOne (.jobj fields) = true := by
                  simp [kindExactlyOne, hk, hp]
                constructor
                · intro _
                  exact ⟨hATok, hKok⟩
                · intro hbad
                  rcases hbad with hbad | hbad
                  · rw [hATok] at hbad; cases hbad
                  · rw [hKok] at hbad; cases hbad
              | cons k2 rest2 =>
                constructor
                · intro h
                  simp [websocketOpFromDict, hat, hnum, hk, parse_websocket_op_kind,
                    hp, exceptIsOk] at h
                · intro _
                  exact ⟨"WebsocketOp kind must contain exactly one operation", by
                    simp [websocketOpFromDict, hat, hnum, hk, parse_websocket_op_kind, hp]⟩
          | jnull =>
            constructor
            · intro h
              simp [websocketOpFromDict, hat, hnum, hk, parse_websocket_op_kind,
                exceptIsOk] at h
            · intro _
              exact ⟨"WebsocketOp kind must be an object", by
                simp [websocketOpFromDict, hat, hnum, hk, parse_websocket_op_kind]⟩
          | jbool b =>
            constructor
            · intro h
              simp [websocketOpFromDict, hat, hnum, hk, parse_websocket_op_kind,
                exceptIsOk] at h
            · intro _
              exact ⟨"WebsocketOp kind must be an object", by
                simp [websocketOpFromDict, hat, hnum, hk, parse_websocket_op_kind]⟩
          | jnum n =>
            constructor
            · intro h
              simp [websocketOpFromDict, hat, hnum, hk, parse_websocket_op_kind,
                exceptIsOk] at h
            · intro _
              exact ⟨"WebsocketOp kind must be an object", by
                simp [websocketOpFromDict, hat, hnum, hk, parse_websocket_op_kind]⟩
          | jstr sv =>
            constructor
            · intro h
              simp [websocketOpFromDict, hat, hnum, hk, parse_websocket_op_kind,
                exceptIsOk] at h
            · intro _
              exact ⟨"WebsocketOp kind must be an object", by
                simp [websocketOpFromDict, hat, hnum, hk, parse_websocket_op_kind]⟩
          | jarr xs =>
            constructor
            · intro h
              simp [websocketOpFromDict, hat, hnum, hk, parse_websocket_op_kind,
                exceptIsOk] at h
            · intro _
              exact ⟨"WebsocketOp kind must be an object", by
                simp [websocketOpFromDict, hat, hnum, hk, parse_websocket_op_kind]⟩

/-- C2 witness: a kind object holding two allowed non-null operation keys
is rejected whole, via the main theorem; and a well-formed envelope indeed
satisfies both validity predicates, via the main theorem again. -/
theorem decode_envelope_exactly_one_witness :
    (∃ e, websocketOpFromDict envTwoOps = .error e) ∧
    (allegedTimeOk envOk = true ∧ kindExactlyOne envOk = true) :=
  ⟨(decode_envelope_exactly_one envTwoOps).2 (Or.inr (by decide)),
   (decode_envelope_exactly_one envOk).1 (by decide)⟩

/-- C5 counterexample: `OverwriteState` returns its payload snapshot
verbatim and the decoder does not validate id uniqueness inside it, so a
well-typed operation that is not an insertion can break the invariant:
overwriting the empty snapshot with one whose live list repeats id "a"
yields duplicate ids. -/
theorem overwrite_state_breaks_uniqueness :
    idsUnique { live := [], finished := [] } ∧
    ¬ idsUnique (apply_operation { live := [], finished := [] }
        (.OverwriteState snapDup)) := by
  constructor
  · decide
  · decide

/-- C5 amended: if every task id of the snapshot appears at most once
across live and finished, and the operation is well formed for it — for
`InsLiveTask` the inserted id is fresh, and for `OverwriteState` the
replacement snapshot itself satisfies the invariant — then the reduced
snapshot again has every id appearing at most once. -/
theorem ids_unique_preserved (s : StateSnapshot) (k : OpKind)
    (hs : idsUnique s) (hk : opWellFormed s k) : idsUnique (apply_operation s k) := by
  cases k with
  | OverwriteState s2 => exact hk
  | InsLiveTask pid v d =>
    show ((({ id := pid, value := v, deadline := d, managed := none } : LiveTask)
        :: s.live).map LiveTask.id ++ s.finished.map FinishedTask.id).Nodup
    simp only [List.map_cons, List.cons_append]
    exact List.nodup_cons.mpr ⟨hk, hs⟩
  | EditLiveTask pid v d =>
    show ((s.live.map (editTask pid v d)).map LiveTask.id
        ++ s.finished.map FinishedTask.id).Nodup
    have hmapid : (s.live.map (editTask pid v d)).map LiveTask.id
        = s.live.map LiveTask.id := by
      rw [List.map_map]
      apply List.map_congr_left
      intro t ht
      show LiveTask.id (editTask pid v d t) = t.id
      unfold editTask
      by_cases h : t.id ≠ pid
      · rw [if_pos h]
      · rw [if_neg h]
    rw [hmapid]
    exact hs
  | DelLiveTask pid =>
    show ((s.live.filter (fun t => t.id ≠ pid)).map LiveTask.id
        ++ s.finished.map FinishedTask.id).Nodup
    exact List.Nodup.sublist
      (List.Sublist.append_right (List.Sublist.map _ (List.filter_sublist _)) _) hs
  | MvLiveTask idd idi =>
    cases hdel : pyFindIdx (fun t => t.id == idd) s.live with
    | none =>
      have happ : apply_operation s (.MvLiveTask idd idi) = s := by
        simp [apply_operation, hdel]
      rw [happ]; exact hs
    | some i =>
      cases hins : pyFindIdx (fun t => t.id == idi) s.live with
      | none =>
        have happ : apply_operation s (.MvLiveTask idd idi) = s := by
          simp [apply_operation, hdel, hins]
        rw [happ]; exact hs
      | some j =>
        by_cases hij : i = j
        · have happ : apply_operation s (.MvLiveTask idd idi) = s := by
            simp [apply_operation, hdel, hins, hij]
          rw [happ]; exact hs
        · obtain ⟨⟨task, htask, _⟩, _⟩ := (pyFindIdx_eq_some _ _ _).mp hdel
          have happ : apply_operation s (.MvLiveTask idd idi) =
              { live := pyInsert j task (s.live.eraseIdx i), finished := s.finished } := by
            simp [apply_operation, hdel, hins, hij, htask]
          rw [happ]
          show ((pyInsert j task (s.live.eraseIdx i)).map LiveTask.id
              ++ s.finished.map FinishedTask.id).Nodup
          have hperm1 : (pyInsert j task (s.live.eraseIdx i)).Perm s.live :=
            (pyInsert_perm j task _).trans (perm_cons_eraseIdx htask).symm
          have hperm2 : (s.live.map LiveTask.id ++ s.finished.map FinishedTask.id).Perm
              ((pyInsert j task (s.live.eraseIdx i)).map LiveTask.id
                ++ s.finished.map FinishedTask.id) :=
            ((hperm1.map LiveTask.id).symm).append_right _
          exact List.Nodup.perm hs hperm2
  | RevLiveTask ida idb =>
    cases hda : pyFindIdx (fun t => t.id == ida) s.live with
    | none =>
      have happ : apply_operation s (.RevLiveTask ida idb) = s := by
        simp [apply_operation, hda]
      rw [happ]; exact hs
    | some i =>
      cases hdb : pyFindIdx (fun t => t.id == idb) s.live with
      | none =>
        have happ : apply_operation s (.RevLiveTask ida idb) = s := by
          simp [apply_operation, hda, hdb]
        rw [happ]; exact hs
      | some j =>
        have happ : apply_operation s (.RevLiveTask ida idb) =
            { live := s.live.take (min i j)
                ++ ((s.live.drop (min i j)).take (max i j + 1 - min i j)).reverse
                ++ s.live.drop (max i j + 1),
              finished := s.finished } := by
          simp [apply_operation, hda, hdb]
        rw [happ]
        show ((s.live.take (min i j)
            ++ ((s.live.drop (min i j)).take (max i j + 1 - min i j)).reverse
            ++ s.live.drop (max i j + 1)).map LiveTask.id
            ++ s.finished.map FinishedTask.id).Nodup
        rw [List.append_assoc]
        have h1 : (((s.live.drop (min i j)).take (max i j + 1 - min i j)).reverse).Perm
            ((s.live.drop (min i j)).take (max i j + 1 - min i j)) :=
          List.reverse_perm _
        have h2 := (h1.append_right (s.live.drop (max i j + 1)))
        have h3 := List.Perm.append_left (s.live.take (min i j)) h2
        have hidx : min i j + (max i j + 1 - min i j) = max i j + 1 := by omega
        have hmd := take_middle_drop (min i j) (max i j + 1 - min i j) s.live
        rw [hidx] at hmd
        rw [hmd] at h3
        have hperm2 := ((h3.symm.map LiveTask.id).symm).append_right
          (s.finished.map FinishedTask.id)
        exact List.Nodup.perm hs (by exact hperm2.symm)
  | FinishLiveTask pid status =>
    cases hdel : pyFindIdx (fun t => t.id == pid) s.live with
    | none =>
      have happ : apply_operation s (.FinishLiveTask pid status) = s := by
        simp [apply_operation, hdel]
      rw [happ]; exact hs
    | some i =>
      obtain ⟨⟨task, htask, hpt⟩, _⟩ := (pyFindIdx_eq_some _ _ _).mp hdel
      have hid : task.id = pid := by simpa using hpt
      have happ : apply_operation s (.FinishLiveTask pid status) =
          { live := s.live.filter (fun t => t.id ≠ pid),
            finished := { id := task.id, value := task.value, deadline := task.deadline,
                          managed := task.managed, status := status } :: s.finished } := by
        simp [apply_operation, hdel, htask]
      rw [happ]
      show ((s.live.filter (fun t => t.id ≠ pid)).map LiveTask.id
          ++ (task.id :: s.finished.map FinishedTask.id)).Nodup
      obtain ⟨hn1, hn2, hdisj⟩ := List.nodup_append.mp hs
      have hrest : ((s.live.filter (fun t => t.id ≠ pid)).map LiveTask.id
          ++ s.finished.map FinishedTask.id).Nodup :=
        List.Nodup.sublist
          (List.Sublist.append_right (List.Sublist.map _ (List.filter_sublist _)) _) hs
      have hnotfilter : task.id ∉ (s.live.filter (fun t => t.id ≠ pid)).map LiveTask.id := by
        intro hmem
        obtain ⟨t, htmem, htid⟩ := List.mem_map.mp hmem
        have := (List.mem_filter.mp htmem).2
        rw [decide_eq_true_eq] at this
        exact this (htid.trans hid)
      have hnotfin : task.id ∉ s.finished.map FinishedTask.id := by
        intro hmem
        exact hdisj (List.mem_map.mpr ⟨task, List.getElem?_mem htask, rfl⟩) hmem
      have hcons : (task.id :: ((s.live.filter (fun t => t.id ≠ pid)).map LiveTask.id
          ++ s.finished.map FinishedTask.id)).Nodup :=
        List.nodup_cons.mpr ⟨by
          intro hmem
          rcases List.mem_append.mp hmem with hm | hm
          · exact hnotfilter hm
          · exact hnotfin hm, hrest⟩
      exact List.Nodup.perm hcons List.perm_middle.symm
  | RestoreFinishedTask pid =>
    cases hdel : pyFindIdx (fun t => t.id == pid) s.finished with
    | none =>
      have happ : apply_operation s (.RestoreFinishedTask pid) = s := by
        simp [apply_operation, hdel]
      rw [happ]; exact hs
    | some i =>
      obtain ⟨⟨ft, hft, hpt⟩, _⟩ := (pyFindIdx_eq_some _ _ _).mp hdel
      have hid : ft.id = pid := by simpa using hpt
      have happ : apply_operation s (.RestoreFinishedTask pid) =
          { live := { id := ft.id, value := ft.value, deadline := ft.deadline,
                      managed := ft.managed } :: s.live,
            finished := s.finished.filter (fun t => t.id ≠ pid) } := by
        simp [apply_operation, hdel, hft]
      rw [happ]
      show (ft.id :: s.live.map LiveTask.id
          ++ (s.finished.filter (fun t => t.id ≠ pid)).map FinishedTask.id).Nodup
      obtain ⟨hn1, hn2, hdisj⟩ := List.nodup_append.mp hs
      have hrest : (s.live.map LiveTask.id
          ++ (s.finished.filter (fun t => t.id ≠ pid)).map FinishedTask.id).Nodup :=
        List.Nodup.sublist
          (List.Sublist.append_left (List.Sublist.map _ (List.filter_sublist _)) _) hs
      have hinfin : ft.id ∈ s.finished.map FinishedTask.id :=
        List.mem_map.mpr ⟨ft, List.getElem?_mem hft, rfl⟩
      have hnotlive : ft.id ∉ s.live.map LiveTask.id := by
        intro hmem
        exact hdisj hmem hinfin
      have hnotfilter : ft.id ∉ (s.finished.filter (fun t => t.id ≠ pid)).map
          FinishedTask.id := by
        intro hmem
        obtain ⟨t, htmem, htid⟩ := List.mem_map.mp hmem
        have := (List.mem_filter.mp htmem).2
        rw [decide_eq_true_eq] at this
        exact this (htid.trans hid)
      rw [List.cons_append]
      refine List.nodup_cons.mpr ⟨?_, hrest⟩
      intro hmem
      rcases List.mem_append.mp hmem with hm | hm
      · exact hnotlive hm
      · exact hnotfilter hm

/-- C5 witness: inserting a fresh id into the concrete unique-id snapshot
`[a, b, c]` keeps the invariant, via the main theorem. -/
theorem ids_unique_preserved_witness :
    idsUnique snapABC ∧
    idsUnique (apply_operation snapABC (.InsLiveTask "d" "D" none)) :=
  ⟨by decide, ids_unique_preserved snapABC (.InsLiveTask "d" "D" none)
    (by decide) (by decide)⟩

theorem pyFindIdx_revSection {p : α → Bool} {l : List α} {i s e : Nat}
    (hcount : l.countP p ≤ 1) (hfind : pyFindIdx p l = some i)
    (hsi : s ≤ i) (hie : i ≤ e) (hel : e < l.length) :
    pyFindIdx p (l.take s ++ (((l.drop s).take (e + 1 - s)).reverse ++ l.drop (e + 1)))
      = some (s + e - i) := by
  have hse : s ≤ e := le_trans hsi hie
  obtain ⟨⟨a, ha, hpa⟩, _⟩ := (pyFindIdx_eq_some _ _ _).mp hfind
  apply (pyFindIdx_eq_some _ _ _).mpr
  constructor
  · refine ⟨a, ?_, hpa⟩
    rw [getElem?_revSection hse hel]
    rw [if_neg (by omega), if_pos (by omega)]
    have hix : s + e - (s + e - i) = i := by omega
    rw [hix]
    exact ha
  · intro m hm c hc
    rw [getElem?_revSection hse hel] at hc
    cases hpc : p c with
    | false => rfl
    | true =>
      exfalso
      by_cases hm1 : m < s
      · rw [if_pos hm1] at hc
        have := countP_le_one_unique hcount hc hpc ha hpa
        omega
      · by_cases hm2 : m ≤ e
        · rw [if_neg hm1, if_pos hm2] at hc
          have := countP_le_one_unique hcount hc hpc ha hpa
          omega
        · rw [if_neg hm1, if_neg hm2] at hc
          have := countP_le_one_unique hcount hc hpc ha hpa
          omega

/-- C9 counterexample: with the duplicated live id list `[a, a, b]`,
applying `RevLiveTask(a, b)` twice does not return the original snapshot —
after the first reversal the first occurrence of "a" has moved, so the
second reversal acts on a different range. -/
theorem rev_live_task_not_involutive_on_duplicates :
    apply_operation (apply_operation snapDup (.RevLiveTask "a" "b"))
        (.RevLiveTask "a" "b")
      ≠ snapDup := by decide

/-- C9 amended: for every snapshot in which each of id1 and id2 occurs at
most once among the live ids, applying `RevLiveTask(id1, id2)` twice in
succession returns a snapshot equal to the original: when both ids are
present the reversal of the contiguous range between their positions is an
involution, and when either id is absent each application is a no-op. -/
theorem rev_live_task_involution (s : StateSnapshot) (id1 id2 : String)
    (h1 : s.live.countP (fun t => t.id == id1) ≤ 1)
    (h2 : s.live.countP (fun t => t.id == id2) ≤ 1) :
    apply_operation (apply_operation s (.RevLiveTask id1 id2)) (.RevLiveTask id1 id2) = s
    ∧ ((pyFindIdx (fun t => t.id == id1) s.live = none ∨
        pyFindIdx (fun t => t.id == id2) s.live = none) →
      apply_operation s (.RevLiveTask id1 id2) = s) := by
  have hnoop : (pyFindIdx (fun t => t.id == id1) s.live = none ∨
      pyFindIdx (fun t => t.id == id2) s.live = none) →
      apply_operation s (.RevLiveTask id1 id2) = s := by
    intro h
    rcases h with h | h
    · simp [apply_operation, h]
    · cases hda : pyFindIdx (fun t => t.id == id1) s.live with
      | none => simp [apply_operation, hda]
      | some i => simp [apply_operation, hda, h]
  refine ⟨?_, hnoop⟩
  cases hda : pyFindIdx (fun t => t.id == id1) s.live with
  | none =>
    rw [hnoop (Or.inl hda), hnoop (Or.inl hda)]
  | some i =>
    cases hdb : pyFindIdx (fun t => t.id == id2) s.live with
    | none =>
      rw [hnoop (Or.inr hdb), hnoop (Or.inr hdb)]
    | some j =>
      have hi : i < s.live.length := pyFindIdx_lt_length hda
      have hj : j < s.live.length := pyFindIdx_lt_length hdb
      have hse : min i j ≤ max i j := by omega
      have hel : max i j < s.live.length := by omega
      have happ1 : apply_operation s (.RevLiveTask id1 id2) =
          { live := s.live.take (min i j)
              ++ (((s.live.drop (min i j)).take (max i j + 1 - min i j)).reverse
                ++ s.live.drop (max i j + 1)),
            finished := s.finished } := by
        simp [apply_operation, hda, hdb, List.append_assoc]
      rw [happ1]
      have hlenA : (s.live.take (min i j)).length = min i j := by simp; omega
      have hlenM : ((s.live.drop (min i j)).take (max i j + 1 - min i j)).length
          = max i j + 1 - min i j := by simp; omega
      have hlenR : (((s.live.drop (min i j)).take (max i j + 1 - min i j)).reverse).length
          = max i j + 1 - min i j := by rw [List.length_reverse]; exact hlenM
      have hf1 : pyFindIdx (fun t => t.id == id1)
          (s.live.take (min i j)
            ++ (((s.live.drop (min i j)).take (max i j + 1 - min i j)).reverse
              ++ s.live.drop (max i j + 1))) = some (min i j + max i j - i) :=
        pyFindIdx_revSection h1 hda (by omega) (by omega) hel
      have hf2 : pyFindIdx (fun t => t.id == id2)
          (s.live.take (min i j)
            ++ (((s.live.drop (min i j)).take (max i j + 1 - min i j)).reverse
              ++ s.live.drop (max i j + 1))) = some (min i j + max i j - j) :=
        pyFindIdx_revSection h2 hdb (by omega) (by omega) hel
      have hm2 : min (min i j + max i j - i) (min i j + max i j - j) = min i j := by omega
      have hx2 : max (min i j + max i j - i) (min i j + max i j - j) = max i j := by omega
      simp only [apply_operation, hf1, hf2]
      rw [hm2, hx2]
      have ht1 : (s.live.take (min i j)
          ++ (((s.live.drop (min i j)).take (max i j + 1 - min i j)).reverse
            ++ s.live.drop (max i j + 1))).take (min i j)
          = s.live.take (min i j) := List.take_left' hlenA
      have ht2 : (s.live.take (min i j)
          ++ (((s.live.drop (min i j)).take (max i j + 1 - min i j)).reverse
            ++ s.live.drop (max i j + 1))).drop (min i j)
          = ((s.live.drop (min i j)).take (max i j + 1 - min i j)).reverse
            ++ s.live.drop (max i j + 1) := List.drop_left' hlenA
      have ht3 : (((s.live.drop (min i j)).take (max i j + 1 - min i j)).reverse
          ++ s.live.drop (max i j + 1)).take (max i j + 1 - min i j)
          = ((s.live.drop (min i j)).take (max i j + 1 - min i j)).reverse :=
        List.take_left' hlenR
      have ht4 : (s.live.take (min i j)
          ++ (((s.live.drop (min i j)).take (max i j + 1 - min i j)).reverse
            ++ s.live.drop (max i j + 1))).drop (max i j + 1)
          = s.live.drop (max i j + 1) := by
        rw [← List.append_assoc]
        apply List.drop_left'
        rw [List.length_append, hlenA, hlenR]
        omega
      rw [ht1, ht2, ht3, ht4, List.reverse_reverse]
      have hidx : min i j + (max i j + 1 - min i j) = max i j + 1 := by omega
      have hmd := take_middle_drop (min i j) (max i j + 1 - min i j) s.live
      rw [hidx] at hmd
      rw [List.append_assoc, hmd]

/-- C9 witness: on the concrete duplicate-free snapshot `[a, b, c]`,
reversing between "a" and "c" twice returns the original snapshot, via the
main theorem. -/
theorem rev_live_task_involution_witness :
    apply_operation (apply_operation snapABC (.RevLiveTask "a" "c"))
        (.RevLiveTask "a" "c")
      = snapABC :=
  (rev_live_task_involution snapABC "a" "c" (by decide) (by decide)).1

theorem weekday_add_props (now : PyNow) (di : Nat) :
    1 ≤ weekdayDaysToAdd now di ∧ weekdayDaysToAdd now di ≤ 7 ∧
    pyWeekday (now.days + weekdayDaysToAdd now di) = ((di : Int) - 1) % 7 ∧
    (∀ m : Int, 1 ≤ m → m < weekdayDaysToAdd now di →
      pyWeekday (now.days + m) ≠ ((di : Int) - 1) % 7) ∧
    (pyWeekday now.days = ((di : Int) - 1) % 7 → weekdayDaysToAdd now di = 7) := by
  simp only [weekdayDaysToAdd, pyWeekday]
  by_cases h : ((di : Int) - 1) % 7 - (now.days + 3) % 7 ≤ 0
  · rw [if_pos h]
    refine ⟨by omega, by omega, by omega, ?_, by omega⟩
    intro m hm1 hm2
    omega
  · rw [if_neg h]
    refine ⟨by omega, by omega, by omega, ?_, by omega⟩
    intro m hm1 hm2
    omega

/-- C6: for every weekday name given alone as the argument of the d
command, `parse_due_command` returns midnight of the next day strictly
after today whose weekday is the requested one — between 1 and 7 days
ahead, never today itself, with no earlier qualifying day skipped — and in
particular on a day that already is that weekday it returns the date 7
days ahead. -/
theorem due_weekday_next_strict (w : String) (hw : w ∈ daysStrings) (now : PyNow) :
    ∃ di k, lookupChars daysAlt w.toList = some di ∧
      parse_due_command now ("d " ++ w) = some ((now.days + k) * 86400) ∧
      1 ≤ k ∧ k ≤ 7 ∧
      pyWeekday (now.days + k) = ((di : Int) - 1) % 7 ∧
      (∀ m : Int, 1 ≤ m → m < k → pyWeekday (now.days + m) ≠ ((di : Int) - 1) % 7) ∧
      (pyWeekday now.days = ((di : Int) - 1) % 7 → k = 7) := by
  fin_cases hw
  · exact ⟨0, weekdayDaysToAdd now 0, rfl, rfl, (weekday_add_props now 0).1,
      (weekday_add_props now 0).2.1, (weekday_add_props now 0).2.2.1,
      (weekday_add_props now 0).2.2.2.1, (weekday_add_props now 0).2.2.2.2⟩
  · exact ⟨1, weekdayDaysToAdd now 1, rfl, rfl, (weekday_add_props now 1).1,
      (weekday_add_props now 1).2.1, (weekday_add_props now 1).2.2.1,
      (weekday_add_props now 1).2.2.2.1, (weekday_add_props now 1).2.2.2.2⟩
  · exact ⟨2, weekdayDaysToAdd now 2, rfl, rfl, (weekday_add_props now 2).1,
      (weekday_add_props now 2).2.1, (weekday_add_props now 2).2.2.1,
      (weekday_add_props now 2).2.2.2.1, (weekday_add_props now 2).2.2.2.2⟩
  · exact ⟨3, weekdayDaysToAdd now 3, rfl, rfl, (weekday_add_props now 3).1,
      (weekday_add_props now 3).2.1, (weekday_add_props now 3).2.2.1,
      (weekday_add_props now 3).2.2.2.1, (weekday_add_props now 3).2.2.2.2⟩
  · exact ⟨4, weekdayDaysToAdd now 4, rfl, rfl, (weekday_add_props now 4).1,
      (weekday_add_props now 4).2.1, (weekday_add_props now 4).2.2.1,
      (weekday_add_props now 4).2.2.2.1, (weekday_add_props now 4).2.2.2.2⟩
  · exact ⟨5, weekdayDaysToAdd now 5, rfl, rfl, (weekday_add_props now 5).1,
      (weekday_add_props now 5).2.1, (weekday_add_props now 5).2.2.1,
      (weekday_add_props now 5).2.2.2.1, (weekday_add_props now 5).2.2.2.2⟩
  · exact ⟨6, weekdayDaysToAdd now 6, rfl, rfl, (weekday_add_props now 6).1,
      (weekday_add_props now 6).2.1, (weekday_add_props now 6).2.2.1,
      (weekday_add_props now 6).2.2.2.1, (weekday_add_props now 6).2.2.2.2⟩

/-- C6 witness: "d monday" on day 0 of the model (a Thursday) resolves to
a strictly future Monday at 00:00 via the main theorem. -/
theorem due_weekday_next_strict_witness :
    ("monday" ∈ daysStrings) ∧
    (∃ di k, lookupChars daysAlt ("monday".toList) = some di ∧
      parse_due_command ⟨0, 0⟩ ("d " ++ "monday") = some (((0 : Int) + k) * 86400) ∧
      1 ≤ k ∧ k ≤ 7 ∧
      pyWeekday ((0 : Int) + k) = ((di : Int) - 1) % 7 ∧
      (∀ m : Int, 1 ≤ m → m < k → pyWeekday ((0 : Int) + m) ≠ ((di : Int) - 1) % 7) ∧
      (pyWeekday (0 : Int) = ((di : Int) - 1) % 7 → k = 7)) :=
  ⟨by decide, due_weekday_next_strict "monday" (by decide) ⟨0, 0⟩⟩

/-- C10: the clock-time form does not validate the hour against 1..12 —
"d 13pm" is accepted and, 13 being turned into 25 by the pm adjustment,
yields today's midnight plus 25 hours; the weekday-plus-time form is
equally permissive ("d monday 13pm" is accepted with the same 25-hour
offset); whereas the month-day-time form rejects an hour outside 1..12
("d jan 5 13pm" returns none). -/
theorem due_hour_not_validated (now : PyNow) (h0 : 0 ≤ now.secs)
    (h1 : now.secs < 86400) :
    parse_due_command now "d 13pm" = some (now.days * 86400 + 25 * 3600) ∧
    parse_due_command now "d monday 13pm"
      = some ((now.days + weekdayDaysToAdd now 1) * 86400 + 25 * 3600) ∧
    parse_due_command now "d jan 5 13pm" = none := by
  refine ⟨?_, ?_, rfl⟩
  · have hred : parse_due_command now "d 13pm"
        = some (if now.days * 86400 + ((25 : Nat) : Int) * 3600 + ((0 : Nat) : Int) * 60
                  ≤ nowTs now
            then now.days * 86400 + ((25 : Nat) : Int) * 3600 + ((0 : Nat) : Int) * 60 + 86400
            else now.days * 86400 + ((25 : Nat) : Int) * 3600 + ((0 : Nat) : Int) * 60) := rfl
    have hcond : ¬(now.days * 86400 + ((25 : Nat) : Int) * 3600 + ((0 : Nat) : Int) * 60
        ≤ nowTs now) := by
      simp only [nowTs]
      omega
    rw [hred, if_neg hcond]
    norm_num
  · have hred2 : parse_due_command now "d monday 13pm"
        = some ((now.days + weekdayDaysToAdd now 1) * 86400
            + ((25 : Nat) : Int) * 3600 + ((0 : Nat) : Int) * 60) := rfl
    rw [hred2]
    norm_num

/-- C10 witness: at a concrete moment the accepted "d 13pm" value and the
rejected month-form are obtained through the main theorem. -/
theorem due_hour_not_validated_witness :
    parse_due_command ⟨19727, 3600⟩ "d 13pm"
      = some ((19727 : Int) * 86400 + 25 * 3600) ∧
    parse_due_command ⟨19727, 3600⟩ "d jan 5 13pm" = none :=
  ⟨(due_hour_not_validated ⟨19727, 3600⟩ (by norm_num) (by norm_num)).1,
   (due_hour_not_validated ⟨19727, 3600⟩ (by norm_num) (by norm_num)).2.2⟩

/-- C7 counterexample: "Jan 5, 2024 3:00 PM" is in the display format and
valid, and its timestamp equals now exactly (2024-01-05 is model day
19727; 3:00 PM is second 54000 of the day) — so it is not in the past —
yet `parse_deadline_input` returns none, because the code rejects with
`dt_obj <= now`, not strictly-less-than. -/
theorem deadline_input_rejects_now_boundary :
    matchDeadline (pyStrip ("Jan 5, 2024 3:00 PM".toList))
      = some { mon := ['J', 'a', 'n'], day := 5, year := 2024, hour := 3,
               minute := 0, isPm := true } ∧
    deadlineFieldsValid { mon := ['J', 'a', 'n'], day := 5, year := 2024, hour := 3,
                          minute := 0, isPm := true } = true ∧
    deadlineFieldsTs { mon := ['J', 'a', 'n'], day := 5, year := 2024, hour := 3,
                       minute := 0, isPm := true } = nowTs ⟨19727, 54000⟩ ∧
    parse_deadline_input ⟨19727, 54000⟩ "Jan 5, 2024 3:00 PM" = none := by
  refine ⟨by decide, by decide, by decide, by decide⟩

/-- C7 amended: `parse_deadline_input` accepts only strings in the fixed
display format "Mon D, YYYY H:MM AM/PM" with a known three-letter month
abbreviation, hour 1..12, minute 0..59 and a day valid for the month; for
every other input it returns none; and among format-valid inputs it
returns none exactly when the denoted timestamp is not strictly after now
(at-or-before now, so a timestamp equal to now is also rejected), and the
matching epoch timestamp otherwise. -/
theorem deadline_input_strictly_future (now : PyNow) (h0 : 0 ≤ now.secs)
    (h1 : now.secs < 86400) (raw : String) :
    (∀ ts, parse_deadline_input now raw = some ts →
      ∃ f, matchDeadline (pyStrip raw.toList) = some f ∧
        deadlineFieldsValid f = true ∧ ts = deadlineFieldsTs f ∧ nowTs now < ts)
    ∧ (matchDeadline (pyStrip raw.toList) = none → parse_deadline_input now raw = none)
    ∧ (∀ f, matchDeadline (pyStrip raw.toList) = some f →
        (deadlineFieldsValid f = false → parse_deadline_input now raw = none)
        ∧ (deadlineFieldsTs f ≤ nowTs now → parse_deadline_input now raw = none))
    ∧ (∀ f, matchDeadline (pyStrip raw.toList) = some f →
        deadlineFieldsValid f = true → nowTs now < deadlineFieldsTs f →
        parse_deadline_input now raw = some (deadlineFieldsTs f)) := by
  cases hm : matchDeadline (pyStrip raw.toList) with
  | none =>
    have hnone : parse_deadline_input now raw = none := by
      cases hcse : pyStrip raw.toList with
      | nil =>
        simp only [parse_deadline_input, hcse]
        rfl
      | cons c rest =>
        rw [hcse] at hm
        simp only [parse_deadline_input, hcse]
        rw [hm]
        rfl
    refine ⟨?_, fun _ => hnone, ?_, ?_⟩
    · intro ts hts
      rw [hnone] at hts
      cases hts
    · intro f hf
      cases hf
    · intro f hf
      cases hf
  | some f =>
    obtain ⟨c, rest, hcse⟩ : ∃ c rest, pyStrip raw.toList = c :: rest := by
      cases hcse : pyStrip raw.toList with
      | nil => rw [hcse] at hm; simp [matchDeadline] at hm
      | cons c rest => exact ⟨c, rest, rfl⟩
    have hm2 : matchDeadline (c :: rest) = some f := by rw [← hcse]; exact hm
    have hP : parse_deadline_input now raw =
        (match lookupChars monthsAbbr (pyLower f.mon) with
         | none => none
         | some month0 =>
           if f.hour < 1 || f.hour > 12 || f.minute > 59 then none
           else if f.year < 1 || f.day < 1
               || daysInMonth (f.year : Int) (month0 + 1) < f.day then none
           else if daysFromCivil (f.year : Int) (month0 + 1) f.day < now.days then none
           else if daysFromCivil (f.year : Int) (month0 + 1) f.day = now.days
               && (daysFromCivil (f.year : Int) (month0 + 1) f.day * 86400
                 + (to24 f.hour f.isPm : Int) * 3600 + (f.minute : Int) * 60 ≤ nowTs now)
             then none
           else some (daysFromCivil (f.year : Int) (month0 + 1) f.day * 86400
             + (to24 f.hour f.isPm : Int) * 3600 + (f.minute : Int) * 60)) := by
      simp only [parse_deadline_input, hcse]
      rw [hm2]
      rfl
    cases hlk : lookupChars monthsAbbr (pyLower f.mon) with
    | none =>
      rw [hlk] at hP
      have hnone : parse_deadline_input now raw = none := hP
      refine ⟨?_, fun _ => hnone, ?_, ?_⟩
      · intro ts hts
        rw [hnone] at hts
        cases hts
      · intro f2 hf2
        injection hf2 with hf2
        subst hf2
        exact ⟨fun _ => hnone, fun _ => hnone⟩
      · intro f2 hf2
        injection hf2 with hf2
        subst hf2
        intro hv hlt
        exfalso
        have hvf : deadlineFieldsValid f = false := by simp [deadlineFieldsValid, hlk]
        rw [hvf] at hv
        cases hv
    | some month0 =>
      rw [hlk] at hP
      have hP2 : parse_deadline_input now raw =
          (if f.hour < 1 || f.hour > 12 || f.minute > 59 then none
           else if f.year < 1 || f.day < 1
               || daysInMonth (f.year : Int) (month0 + 1) < f.day then none
           else if daysFromCivil (f.year : Int) (month0 + 1) f.day < now.days then none
           else if daysFromCivil (f.year : Int) (month0 + 1) f.day = now.days
               && (daysFromCivil (f.year : Int) (month0 + 1) f.day * 86400
                 + (to24 f.hour f.isPm : Int) * 3600 + (f.minute : Int) * 60 ≤ nowTs now)
             then none
           else some (daysFromCivil (f.year : Int) (month0 + 1) f.day * 86400
             + (to24 f.hour f.isPm : Int) * 3600 + (f.minute : Int) * 60)) := by
        rw [hP]
      have hts_def : deadlineFieldsTs f
          = daysFromCivil (f.year : Int) (month0 + 1) f.day * 86400
            + (to24 f.hour f.isPm : Int) * 3600 + (f.minute : Int) * 60 := by
        simp [deadlineFieldsTs, hlk]
      cases hA : (f.hour < 1 || f.hour > 12 || f.minute > 59 : Bool) with
      | true =>
        have hnone : parse_deadline_input now raw = none := by
          rw [hP2, hA]
          rfl
        refine ⟨?_, fun hx => ?_, ?_, ?_⟩
        · intro ts hts
          rw [hnone] at hts
          cases hts
        · cases hx
        · intro f2 hf2
          injection hf2 with hf2
          subst hf2
          exact ⟨fun _ => hnone, fun _ => hnone⟩
        · intro f2 hf2
          injection hf2 with hf2
          subst hf2
          intro hv hlt
          exfalso
          have hvf : deadlineFieldsValid f = false := by
            simp only [deadlineFieldsValid, hlk]
            rw [hA]
            rfl
          rw [hvf] at hv
          cases hv
      | false =>
        cases hB : (f.year < 1 || f.day < 1
            || daysInMonth (f.year : Int) (month0 + 1) < f.day : Bool) with
        | true =>
          have hnone : parse_deadline_input now raw = none := by
            rw [hP2, hA, hB]
            rfl
          refine ⟨?_, fun hx => ?_, ?_, ?_⟩
          · intro ts hts
            rw [hnone] at hts
            cases hts
          · cases hx
          · intro f2 hf2
            injection hf2 with hf2
            subst hf2
            exact ⟨fun _ => hnone, fun _ => hnone⟩
          · intro f2 hf2
            injection hf2 with hf2
            subst hf2
            intro hv hlt
            exfalso
            have hvf : deadlineFieldsValid f = false := by
              simp only [deadlineFieldsValid, hlk]
              rw [hA, hB]
              rfl
            rw [hvf] at hv
            cases hv
        | false =>
          have hvalid : deadlineFieldsValid f = true := by
            simp only [deadlineFieldsValid, hlk]
            rw [hA, hB]
            rfl
          have hAprops : ¬ f.hour < 1 ∧ ¬ f.hour > 12 ∧ ¬ f.minute > 59 := by
            have hA' := hA
            simp only [Bool.or_eq_false_iff, decide_eq_false_iff_not] at hA'
            exact ⟨hA'.1.1, hA'.1.2, hA'.2⟩
          have h24le : to24 f.hour f.isPm ≤ 23 := by
            obtain ⟨hh1, hh2, _⟩ := hAprops
            unfold to24
            by_cases hp : f.isPm
            · by_cases h12 : f.hour = 12
              · simp [hp, h12]
              · simp [hp, h12]; omega
            · by_cases h12 : f.hour = 12
              · simp [hp, h12]
              · simp [hp, h12]; omega
          have hminle : f.minute ≤ 59 := by
            obtain ⟨_, _, h⟩ := hAprops
            omega
          have htp0 : (0 : Int) ≤ (to24 f.hour f.isPm : Int) * 3600 + (f.minute : Int) * 60 := by
            omega
          have htp1 : (to24 f.hour f.isPm : Int) * 3600 + (f.minute : Int) * 60 < 86400 := by
            omega
          rcases lt_trichotomy (daysFromCivil (f.year : Int) (month0 + 1) f.day) now.days
            with hd | hd | hd
          · have hnone : parse_deadline_input now raw = none := by
              rw [hP2, hA, hB, if_pos hd]
              rfl
            refine ⟨?_, fun hx => ?_, ?_, ?_⟩
            · intro ts hts
              rw [hnone] at hts
              cases hts
            · cases hx
            · intro f2 hf2
              injection hf2 with hf2
              subst hf2
              exact ⟨fun _ => hnone, fun _ => hnone⟩
            · intro f2 hf2
              injection hf2 with hf2
              subst hf2
              intro hv hlt
              exfalso
              rw [hts_def] at hlt
              simp only [nowTs] at hlt
              omega
          · by_cases hts : daysFromCivil (f.year : Int) (month0 + 1) f.day * 86400
                + (to24 f.hour f.isPm : Int) * 3600 + (f.minute : Int) * 60 ≤ nowTs now
            · have hcond : (daysFromCivil (f.year : Int) (month0 + 1) f.day = now.days
                  && (daysFromCivil (f.year : Int) (month0 + 1) f.day * 86400
                    + (to24 f.hour f.isPm : Int) * 3600 + (f.minute : Int) * 60
                    ≤ nowTs now) : Bool) = true := by
                simp only [Bool.and_eq_true, decide_eq_true_eq]
                exact ⟨hd, hts⟩
              have hnone : parse_deadline_input now raw = none := by
                rw [hP2, hA, hB, if_neg (show ¬ daysFromCivil (f.year : Int) (month0 + 1) f.day
                  < now.days by omega), hcond]
                rfl
              refine ⟨?_, fun hx => ?_, ?_, ?_⟩
              · intro ts hts2
                rw [hnone] at hts2
                cases hts2
              · cases hx
              · intro f2 hf2
                injection hf2 with hf2
                subst hf2
                exact ⟨fun _ => hnone, fun _ => hnone⟩
              · intro f2 hf2
                injection hf2 with hf2
                subst hf2
                intro hv hlt
                exfalso
                rw [hts_def] at hlt
                omega
            · have hcond : (daysFromCivil (f.year : Int) (month0 + 1) f.day = now.days
                  && (daysFromCivil (f.year : Int) (month0 + 1) f.day * 86400
                    + (to24 f.hour f.isPm : Int) * 3600 + (f.minute : Int) * 60
                    ≤ nowTs now) : Bool) = false := by
                simp [hts]
              have hsome : parse_deadline_input now raw
                  = some (daysFromCivil (f.year : Int) (month0 + 1) f.day * 86400
                    + (to24 f.hour f.isPm : Int) * 3600 + (f.minute : Int) * 60) := by
                rw [hP2, hA, hB, if_neg (show ¬ daysFromCivil (f.year : Int) (month0 + 1) f.day
                  < now.days by omega), hcond]
                rfl
              refine ⟨?_, fun hx => ?_, ?_, ?_⟩
              · intro ts hts2
                rw [hsome] at hts2
                injection hts2 with hts2
                subst hts2
                refine ⟨f, rfl, hvalid, hts_def.symm, ?_⟩
                omega
              · cases hx
              · intro f2 hf2
                injection hf2 with hf2
                subst hf2
                refine ⟨fun hx => ?_, fun hx => ?_⟩
                · rw [hvalid] at hx; cases hx
                · rw [hts_def] at hx
                  exact absurd hx hts
              · intro f2 hf2
                injection hf2 with hf2
                subst hf2
                intro hv hlt
                rw [hts_def]
                exact hsome
          · have hgt : nowTs now < daysFromCivil (f.year : Int) (month0 + 1) f.day * 86400
                + (to24 f.hour f.isPm : Int) * 3600 + (f.minute : Int) * 60 := by
              simp only [nowTs]
              omega
            have hne : daysFromCivil (f.year : Int) (month0 + 1) f.day ≠ now.days := by omega
            have hcond : (daysFromCivil (f.year : Int) (month0 + 1) f.day = now.days
                && (daysFromCivil (f.year : Int) (month0 + 1) f.day * 86400
                  + (to24 f.hour f.isPm : Int) * 3600 + (f.minute : Int) * 60
                  ≤ nowTs now) : Bool) = false := by
              simp [hne]
            have hsome : parse_deadline_input now raw
                = some (daysFromCivil (f.year : Int) (month0 + 1) f.day * 86400
                  + (to24 f.hour f.isPm : Int) * 3600 + (f.minute : Int) * 60) := by
              rw [hP2, hA, hB, if_neg (show ¬ daysFromCivil (f.year : Int) (month0 + 1) f.day
                < now.days by omega), hcond]
              rfl
            refine ⟨?_, fun hx => ?_, ?_, ?_⟩
            · intro ts hts2
              rw [hsome] at hts2
              injection hts2 with hts2
              subst hts2
              exact ⟨f, rfl, hvalid, hts_def.symm, hgt⟩
            · cases hx
            · intro f2 hf2
              injection hf2 with hf2
              subst hf2
              refine ⟨fun hx => ?_, fun hx => ?_⟩
              · rw [hvalid] at hx; cases hx
              · rw [hts_def] at hx
                exact absurd hx (by omega)
            · intro f2 hf2
              injection hf2 with hf2
              subst hf2
              intro hv hlt
              rw [hts_def]
              exact hsome

/-- C7 witness: at the concrete now 2024-01-05 15:00:00, a yesterday-dated
input in the display format is rejected, and a tomorrow-dated input is
accepted with its matching epoch timestamp, both via the main theorem. -/
theorem deadline_input_strictly_future_witness :
    parse_deadline_input ⟨19727, 54000⟩ "Jan 4, 2024 3:00 PM" = none ∧
    parse_deadline_input ⟨19727, 54000⟩ "Jan 6, 2024 3:00 PM"
      = some (deadlineFieldsTs ⟨['J', 'a', 'n'], 6, 2024, 3, 0, true⟩) :=
  ⟨((deadline_input_strictly_future ⟨19727, 54000⟩ (by norm_num) (by norm_num)
      "Jan 4, 2024 3:00 PM").2.2.1
    ⟨['J', 'a', 'n'], 4, 2024, 3, 0, true⟩ (by decide)).2 (by decide),
   (deadline_input_strictly_future ⟨19727, 54000⟩ (by norm_num) (by norm_num)
      "Jan 6, 2024 3:00 PM").2.2.2
    ⟨['J', 'a', 'n'], 6, 2024, 3, 0, true⟩ (by decide) (by decide) (by decide)⟩
